import Mathlib

/-!
Verification of the karma-player federated music search core.

Shallow embedding of the Python sources:
  - `karma_player/models/source.py`        (`MusicSource`, quality scoring)
  - `karma_player/services/search/engine.py`      (`SearchEngine.search`)
  - `karma_player/services/search/source_adapter.py` (health / circuit breaker)
  - `karma_player/services/search/adapter_jackett.py` (torznab adapter)
  - `karma_player/services/search/metadata.py`    (`MetadataExtractor`)
  - `karma_player/musicbrainz.py`          (`MusicBrainzClient.search_recordings`)
  - `karma_player/torrent/models.py`       (`TorrentResult`)
  - `karma_player/ai/agent.py`             (selector fallback logic)
  - `karma_player/services/search_orchestrator.py` (`_fallback_parse`)
  - `karma_player/cli.py`                  (`search_with_format_fallback`)

Machine floats are modelled as `ℚ`, Python `Optional[T]` as `Option T`,
external primitives (SHA-1, RFC-822 date parsing, wall-clock time, the
network, the LLM) as explicit parameters or outcome data types.
-/

namespace KarmaPlayer

/-! ## Python string primitives (ASCII semantics) -/

/-- Python `str.upper()` restricted to ASCII (character-wise uppercase). -/
def pyUpper (s : String) : String :=
  ⟨s.data.map Char.toUpper⟩

/-- Python `str.lower()` restricted to ASCII (character-wise lowercase). -/
def pyLower (s : String) : String :=
  ⟨s.data.map Char.toLower⟩

/-- Test `listStarts h n`: `n` is an initial segment of `h`. -/
def listStarts : List Char → List Char → Bool
  | _, [] => true
  | [], _ :: _ => false
  | a :: as, b :: bs => a = b && listStarts as bs

/-- Python substring test `n in h` on character lists. -/
def listHas (h n : List Char) : Bool :=
  listStarts h n ||
    match h with
    | [] => false
    | _ :: t => listHas t n

/-- Python `needle in haystack`. -/
def strHas (haystack needle : String) : Bool :=
  listHas haystack.data needle.data

/-- Python `s.startswith(p)`. -/
def strStarts (s p : String) : Bool :=
  listStarts s.data p.data

/-- One pass of Python `str.replace` on lists, with fuel (left-to-right,
non-overlapping occurrences). -/
def replaceAux (old new : List Char) : Nat → List Char → List Char
  | 0, h => h
  | _ + 1, [] => []
  | fuel + 1, h@(c :: t) =>
    if old ≠ [] ∧ listStarts h old then
      new ++ replaceAux old new fuel (h.drop old.length)
    else
      c :: replaceAux old new fuel t

/-- Python `s.replace(old, new)` (for non-empty `old`). -/
def strReplace (s old new : String) : String :=
  ⟨replaceAux old.data new.data (s.length + 1) s.data⟩

/-- Python whitespace test (ASCII approximation). -/
def isPySpace (c : Char) : Bool :=
  c = ' ' || c = '\t' || c = '\n' || c = '\r' || c = '\x0b' || c = '\x0c'

/-- Python `s.strip()`. -/
def strStrip (s : String) : String :=
  ⟨((s.data.dropWhile isPySpace).reverse.dropWhile isPySpace).reverse⟩

/-- Splitting on whitespace runs, as Python `s.split()` (no empty words). -/
def splitWordsAux : List Char → List Char → List String
  | acc, [] => if acc = [] then [] else [⟨acc.reverse⟩]
  | acc, c :: t =>
    if isPySpace c then
      if acc = [] then splitWordsAux [] t
      else ⟨acc.reverse⟩ :: splitWordsAux [] t
    else
      splitWordsAux (c :: acc) t

/-- Python `query.split()`. -/
def splitWords (s : String) : List String :=
  splitWordsAux [] s.data

/-- Python `int(s)`: optional surrounding whitespace, optional sign, a
non-empty digit run, nothing else.  Returns `none` on `ValueError`. -/
def pyInt (s : String) : Option Int :=
  let chars := (strStrip s).data
  let (sign, digits) :=
    match chars with
    | '-' :: rest => ((-1 : Int), rest)
    | '+' :: rest => ((1 : Int), rest)
    | rest => ((1 : Int), rest)
  if digits ≠ [] ∧ digits.all Char.isDigit then
    some (sign * (digits.foldl (fun acc c => acc * 10 + (c.toNat - '0'.toNat)) (0 : Nat) : Nat))
  else
    none

/-! ## `models/source.py`: `MusicSource` and quality scoring -/

/-- The `SourceType` enum from `models/source.py`. -/
inductive SourceType where
  | torrent
  | youtube
  | piped
  | jiosaavn
  | invidious
  | local
deriving DecidableEq, Repr

/-- Truthiness of a Python `Optional[str]` field (`None` and `""` are falsy). -/
def optStrTruthy : Option String → Bool
  | none => false
  | some s => s ≠ ""

/-- Truthiness of a Python `Optional[int]` field (`None` and `0` are falsy). -/
def optIntTruthy : Option Int → Bool
  | none => false
  | some n => n ≠ 0

/-- The `MusicSource` dataclass (`models/source.py`).  Floats are `ℚ`,
`datetime` timestamps are `ℚ` seconds. -/
structure MusicSource where
  id : String
  title : String
  artist : Option String := none
  format : Option String := none
  source_type : SourceType := SourceType.torrent
  url : String := ""
  quality_score : ℚ := 0
  indexer : String := "unknown"
  seeders : Option Int := none
  leechers : Option Int := none
  size_bytes : Option Int := none
  uploaded_at : Option ℚ := none
  codec : Option String := none
  bitrate : Option String := none
  thumbnail_url : Option String := none
  duration_seconds : Option Int := none
  magnet_link : Option String := none
deriving DecidableEq, Repr

/-- Hex-digit test used by the `btih` regex character class `[a-fA-F0-9]`. -/
def isHexDigit (c : Char) : Bool :=
  c.isDigit || ('a' ≤ c && c ≤ 'f') || ('A' ≤ c && c ≤ 'F')

/-- Model of `re.search(r"xt=urn:btih:([a-fA-F0-9]+)", s)`: leftmost occurrence of the
literal followed by at least one hex digit; captures the maximal hex run. -/
def btihSearchAux : List Char → Option (List Char)
  | [] => none
  | h@(_ :: t) =>
    if listStarts h "xt=urn:btih:".data then
      let rest := h.drop "xt=urn:btih:".length
      let hex := rest.takeWhile isHexDigit
      if hex ≠ [] then some hex else btihSearchAux t
    else btihSearchAux t

/-- Captured group of the `btih` regex search, if any. -/
def btihSearch (s : String) : Option String :=
  (btihSearchAux s.data).map fun l => ⟨l⟩

/-- Property `MusicSource.infohash` (`models/source.py` lines 86-99).  `sha1hex40`
models `hashlib.sha1(url).hexdigest()[:40]`, an external primitive. -/
def musicSourceInfohash (sha1hex40 : String → String) (s : MusicSource) : String :=
  if s.source_type = SourceType.torrent ∧ s.url ≠ "" then
    match btihSearch s.url with
    | some hex => pyLower hex
    | none =>
      if ¬ strStarts s.url "magnet:" then pyLower (sha1hex40 s.url)
      else s.id
  else s.id

/-- Method `MusicSource._calculate_torrent_format_bonus` (`models/source.py`). -/
def calcTorrentFormatBonus (s : MusicSource) : ℚ :=
  match s.format with
  | none => 80
  | some f =>
    if f = "" then 80
    else
      let format_upper := pyUpper f
      if format_upper = "FLAC" then
        let base : ℚ := 200
        let title_upper := pyUpper s.title
        if ¬ optStrTruthy s.bitrate then base
        else
          let bitrate_upper := pyUpper (s.bitrate.getD "")
          if strHas bitrate_upper "DSD" || strHas title_upper "DSD" then
            base + 100
          else if ["24/192", "24/176", "24/96", "24/88", "24BIT", "24-BIT",
              "24 BIT"].any
              (fun m => strHas bitrate_upper m || strHas title_upper m) then
            base + 60
          else if ["16/192", "16/96", "16/88"].any
              (fun m => strHas bitrate_upper m || strHas title_upper m) then
            base + 30
          else base
      else if format_upper = "ALAC" then 190
      else if optStrTruthy s.bitrate ∧ strHas (s.bitrate.getD "") "320" then 150
      else if optStrTruthy s.bitrate ∧ strHas (s.bitrate.getD "") "V0" then 140
      else if optStrTruthy s.bitrate ∧ strHas (s.bitrate.getD "") "256" then 120
      else 80

/-- Method `MusicSource._calculate_streaming_codec_bonus` (`models/source.py`). -/
def calcStreamingCodecBonus (s : MusicSource) : ℚ :=
  if optStrTruthy s.format then
    let format_upper := pyUpper (s.format.getD "")
    if format_upper = "FLAC" then 200
    else if format_upper = "OPUS" then 160
    else if format_upper = "AAC" ∨ format_upper = "M4A" then 140
    else if format_upper = "VORBIS" then 120
    else if format_upper = "MP3" then 100
    else calcStreamingCodecBonusFromCodec s
  else calcStreamingCodecBonusFromCodec s
where
  /-- Fall-through to the `codec` field when `format` gives no bonus. -/
  calcStreamingCodecBonusFromCodec (s : MusicSource) : ℚ :=
    if optStrTruthy s.codec then
      let codec_lower := pyLower (s.codec.getD "")
      if strHas codec_lower "opus" then 160
      else if strHas codec_lower "aac" then 140
      else if strHas codec_lower "vorbis" then 120
      else if strHas codec_lower "mp3" then 100
      else 80
    else 80

/-- Method `MusicSource._calculate_bitrate_bonus` (`models/source.py`). -/
def calcBitrateBonus (s : MusicSource) : ℚ :=
  match s.bitrate with
  | none => 50
  | some br =>
    if br = "" then 50
    else
      let cleaned := strStrip (strReplace (strReplace (pyLower br) "kbps" "") "k" "")
      match pyInt cleaned with
      | some n => min ((n : ℚ) / 320 * 100) 100
      | none => 50

/-- Method `MusicSource.calculate_quality_score` (`models/source.py`). -/
def calculateQualityScore (s : MusicSource) : ℚ :=
  let score : ℚ :=
    if s.source_type = SourceType.torrent then
      let format_bonus := calcTorrentFormatBonus s
      let seeder_bonus : ℚ :=
        if optIntTruthy s.seeders then min ((s.seeders.getD 0 : ℚ) * 2) 100 else 0
      let size_mb : ℚ :=
        if optIntTruthy s.size_bytes then (s.size_bytes.getD 0 : ℚ) / (1024 * 1024) else 0
      let size_bonus := min (size_mb / 10) 50
      format_bonus + seeder_bonus + size_bonus
    else
      calcStreamingCodecBonus s + calcBitrateBonus s + 50
  min score 1000

/-- First half of `MusicSource.__post_init__` (`models/source.py` lines
76-80): magnet/url back-filling. -/
def postInitFix (s : MusicSource) : MusicSource :=
  if optStrTruthy s.magnet_link ∧ s.url = "" then
    { s with url := s.magnet_link.getD "" }
  else if s.url ≠ "" ∧ ¬ optStrTruthy s.magnet_link ∧
      s.source_type = SourceType.torrent then
    { s with magnet_link := some s.url }
  else s

/-- Method `MusicSource.__post_init__` (`models/source.py` lines 74-84): magnet/url
back-filling, then quality-score auto-calculation when the score is `0.0`. -/
def postInit (s : MusicSource) : MusicSource :=
  let s := postInitFix s
  if s.quality_score = 0 then
    { s with quality_score := calculateQualityScore s }
  else s

/-! ## Stable sorting (Python `list.sort` is stable) -/

/-- Stable insertion of `x` into `l`: `x` is placed before the first element
`y` with `lt x y`, hence after every earlier element it does not strictly
precede. -/
def stableInsert (lt : α → α → Bool) (x : α) : List α → List α
  | [] => [x]
  | y :: ys => if lt x y then x :: y :: ys else y :: stableInsert lt x ys

/-- Stable insertion sort: elements are taken in input order and each is
inserted after all its `lt`-ties, matching Python's stable `list.sort`. -/
def stableSort (lt : α → α → Bool) (l : List α) : List α :=
  l.foldl (fun acc x => stableInsert lt x acc) []

/-! ## `services/search/engine.py`: `SearchEngine.search` (pure pipeline) -/

/-- Dedup loop of `SearchEngine.search` (`engine.py` lines 64-75): `seen` is
the `seen_hashes` set; results with empty infohash are always kept. -/
def dedupAux (sha1hex40 : String → String) :
    List MusicSource → List String → List MusicSource
  | [], _ => []
  | r :: rest, seen =>
    let ih := musicSourceInfohash sha1hex40 r
    if ih = "" then r :: dedupAux sha1hex40 rest seen
    else if ih ∈ seen then dedupAux sha1hex40 rest seen
    else r :: dedupAux sha1hex40 rest (ih :: seen)

/-- Deduplication by infohash, first occurrence wins. -/
def dedupByInfohash (sha1hex40 : String → String) (l : List MusicSource) :
    List MusicSource :=
  dedupAux sha1hex40 l []

/-- Seeder filter (`engine.py` lines 77-82): torrent results need
`seeders ≥ min_seeders`; sources without seeders always pass. -/
def seedersFilter (min_seeders : Int) (l : List MusicSource) : List MusicSource :=
  l.filter fun r =>
    match r.seeders with
    | none => true
    | some n => min_seeders ≤ n

/-- Format filter (`engine.py` lines 84-89): applied only when
`format_filter` is truthy; keeps results whose `format` is truthy and equal
case-insensitively. -/
def formatFilterStage (format_filter : Option String) (l : List MusicSource) :
    List MusicSource :=
  if optStrTruthy format_filter then
    l.filter fun r =>
      optStrTruthy r.format ∧ pyUpper (r.format.getD "") = pyUpper (format_filter.getD "")
  else l

/-- Comparison used by `filtered_results.sort(key=..., reverse=True)`:
descending by `quality_score`, stable on ties. -/
def scoreGt (a b : MusicSource) : Bool :=
  b.quality_score < a.quality_score

/-- Pure core of `SearchEngine.search` (`engine.py` lines 47-94) on the
concatenation `all_results` of the healthy adapters' result lists:
dedup by infohash, seeder filter, format filter, stable sort by quality
score descending. -/
def engineSearch (sha1hex40 : String → String) (all_results : List MusicSource)
    (format_filter : Option String) (min_seeders : Int) : List MusicSource :=
  stableSort scoreGt
    (formatFilterStage format_filter
      (seedersFilter min_seeders (dedupByInfohash sha1hex40 all_results)))

/-- Normalization of the wildcard filter in the CLI caller
(`cli.py` lines 107-109): `"*"` means "any format". -/
def cliNormalizeFormat (format_filter : Option String) : Option String :=
  if format_filter = some "*" then none else format_filter

/-! ## `services/search/source_adapter.py`: health / circuit breaker -/

/-- Adapter health record (`SourceAdapter.__init__`): wall-clock timestamps
are `ℚ` seconds. -/
structure Health where
  consecutive_failures : Nat
  last_success : ℚ
  last_failure : ℚ
  threshold : Nat := 3
  cooldown : ℚ := 300
deriving DecidableEq, Repr

/-- Method `SourceAdapter._update_health` (`source_adapter.py` lines 85-97);
`now` models `datetime.now(timezone.utc).timestamp()`. -/
def updateHealth (h : Health) (success : Bool) (now : ℚ) : Health :=
  if success then
    { h with consecutive_failures := 0, last_success := now }
  else
    { h with consecutive_failures := h.consecutive_failures + 1, last_failure := now }

/-- Property `SourceAdapter.is_healthy` (`source_adapter.py` lines 45-67).  The
property also mutates the record (counter reset on cooldown expiry), so it
returns the updated record alongside the boolean. -/
def isHealthy (h : Health) (now : ℚ) : Bool × Health :=
  if h.threshold ≤ h.consecutive_failures then
    if now - h.last_failure < h.cooldown then (false, h)
    else (true, { h with consecutive_failures := 0 })
  else (true, h)

/-- A sequence of failure observations at the given times (left to right). -/
def applyFailures (h : Health) (times : List ℚ) : Health :=
  times.foldl (fun acc t => updateHealth acc false t) h

/-! ## `musicbrainz.py`: `MusicBrainzClient.search_recordings` -/

/-- The `MusicBrainzResult` dataclass (`musicbrainz.py`). -/
structure MusicBrainzResult where
  mbid : String
  artist : String
  title : String
  album : Option String := none
  year : Option Int := none
  duration : Option Int := none
  score : Int := 0
deriving DecidableEq, Repr

/-- The fetch limit computed in `search_recordings` (`musicbrainz.py`
line 86): `min(100, max(100, limit * 5))`. -/
def mbFetchLimit (limit : Int) : Int :=
  min 100 (max 100 (limit * 5))

/-- Sort key comparison for `recordings.sort(key=lambda x: (-x.score, x.mbid))`
(`musicbrainz.py` line 151): ascending lexicographic on `(-score, mbid)`. -/
def mbKeyLt (a b : MusicBrainzResult) : Bool :=
  (-a.score < -b.score) || (-a.score = -b.score && a.mbid < b.mbid)

/-- Local post-processing of parsed MusicBrainz recordings
(`musicbrainz.py` lines 149-154): sort by `(-score, mbid)`, take `limit`. -/
def mbLocalOrder (recordings : List MusicBrainzResult) (limit : Nat) :
    List MusicBrainzResult :=
  (stableSort mbKeyLt recordings).take limit

/-! ## `torrent/models.py`: `TorrentResult` and its quality score -/

/-- The `TorrentResult` dataclass (`torrent/models.py`). -/
structure TorrentResult where
  title : String
  magnet_link : String
  size_bytes : Int
  seeders : Int
  leechers : Int
  uploaded_at : ℚ
  indexer : String
  format : Option String := none
  bitrate : Option String := none
  source : Option String := none
deriving DecidableEq, Repr

/-- Property `TorrentResult.quality_score` (`torrent/models.py` lines 62-121). -/
def torrentQualityScore (t : TorrentResult) : ℚ :=
  let format_bonus : ℚ :=
    if optStrTruthy t.format then
      let format_upper := pyUpper (t.format.getD "")
      if format_upper = "FLAC" then
        let base : ℚ := 200
        let title_upper := pyUpper t.title
        if ¬ optStrTruthy t.bitrate then base
        else
          let bitrate_upper := pyUpper (t.bitrate.getD "")
          if strHas bitrate_upper "DSD" || strHas title_upper "DSD" then base + 100
          else if ["24/192", "24/176", "24/96", "24/88", "24BIT", "24-BIT",
              "24 BIT"].any
              (fun m => strHas bitrate_upper m || strHas title_upper m) then
            base + 60
          else if ["16/192", "16/96", "16/88"].any
              (fun m => strHas bitrate_upper m || strHas title_upper m) then
            base + 30
          else base
      else if format_upper = "ALAC" then 190
      else if optStrTruthy t.bitrate ∧ strHas (t.bitrate.getD "") "320" then 150
      else if optStrTruthy t.bitrate ∧ strHas (t.bitrate.getD "") "V0" then 140
      else if optStrTruthy t.bitrate ∧ strHas (t.bitrate.getD "") "256" then 100
      else if format_upper = "MP3" then 80
      else if format_upper = "AAC" ∨ format_upper = "OGG" ∨ format_upper = "OPUS" then 70
      else 0
    else 0
  let title_upper := pyUpper t.title
  let format_bonus :=
    if ["[LP]", "(LP)", "VINYL", "ビニール"].any (fun m => strHas title_upper m) then
      format_bonus + 15
    else format_bonus
  let seeder_bonus : ℚ := min ((t.seeders : ℚ) * 3) 120
  let size_gb : ℚ := (t.size_bytes : ℚ) / (1024 * 1024 * 1024)
  let size_bonus : ℚ := min (size_gb * 4) 25
  format_bonus + seeder_bonus + size_bonus

/-! ## `ai/agent.py`: selector fallback logic -/

/-- The `AIDecision` dataclass (`ai/agent.py`).  Candidate tuples are
`(index, torrent, reason)`. -/
structure AIDecision where
  selected_torrent : TorrentResult
  selected_index : Int
  reasoning : String
  top_candidates : List (Nat × TorrentResult × String)
  rejected : List (Nat × TorrentResult × String)
  fallback_used : Bool := false
  album_mismatch : Bool := false
deriving DecidableEq, Repr

/-- Python `max(results, key=...)`: first element attaining the maximum key
(later elements replace the current best only on a strictly greater key). -/
def pyMaxBy (key : α → ℚ) : List α → Option α
  | [] => none
  | x :: xs => some (xs.foldl (fun best y => if key best < key y then y else best) x)

/-- Python `results.index(best)`: index of the first element equal to
`best` (`none` models the `ValueError` on a missing element). -/
def pyIndexOf [DecidableEq α] : List α → α → Option Nat
  | [], _ => none
  | y :: ys, x => if y = x then some 0 else (pyIndexOf ys x).map (· + 1)

/-- Method `TorrentSelector.select_by_quality_score` (`ai/agent.py` lines 32-56):
`none` models the `ValueError` raised on an empty list. -/
def selectByQualityScore (results : List TorrentResult) :
    Option (TorrentResult × Nat) := do
  let best ← pyMaxBy torrentQualityScore results
  let idx ← pyIndexOf results best
  pure (best, idx)

/-- Method `TorrentSelector.create_fallback_decision` (`ai/agent.py` lines 58-84). -/
def createFallbackDecision (results : List TorrentResult) (reason : String)
    (album_mismatch : Bool) : Option AIDecision := do
  let (best, idx) ← selectByQualityScore results
  pure
    { selected_torrent := best
      selected_index := (idx : Int)
      reasoning := reason
      top_candidates := [(idx, best, "Highest quality score")]
      rejected := []
      fallback_used := true
      album_mismatch := album_mismatch }

/-- A JSON value observed in an advisor response field: either an integer or
some non-integer value (whose use in an integer comparison raises
`TypeError`). -/
inductive JsonVal where
  | intVal (n : Int)
  | otherVal
deriving DecidableEq, Repr

/-- An item of the advisor's `top_3` / `rejected_sample` arrays:
`index` is absent (`item.get("index") is None`) or a JSON value; `reason`
defaults to `""`. -/
structure AIItem where
  index : Option JsonVal
  reason : String := ""
deriving DecidableEq, Repr

/-- The JSON object extracted from the advisor response, with optional
fields as produced by `data.get(...)` / `"selected_index" in data`. -/
structure AIJson where
  selected_index : Option JsonVal := none
  reasoning : Option String := none
  top_3 : List AIItem := []
  rejected_sample : List AIItem := []
deriving DecidableEq, Repr

/-- Outcome of the regex/JSON extraction stage of
`TorrentAgent._parse_detailed_selection`: no brace-matched text in the
response, a JSON decode error, or a decoded object. -/
inductive ContentOutcome where
  | noJson
  | jsonBad
  | jsonOk (data : AIJson)
deriving DecidableEq, Repr

/-- Building the `top_candidates` / `rejected` lists from advisor items
(`ai/agent.py` lines 440-451): items with an absent index are skipped,
in-range integer indices are kept, and a non-integer index raises
`TypeError` (modelled as `none`), which the caller turns into a fallback. -/
def buildCandidateList (results : List TorrentResult) (items : List AIItem) :
    Option (List (Nat × TorrentResult × String)) :=
  items.foldlM
    (fun acc item =>
      match item.index with
      | none => some acc
      | some (JsonVal.intVal idx) =>
        if h : 0 ≤ idx ∧ idx.toNat < results.length then
          some (acc ++ [(idx.toNat, results.get ⟨idx.toNat, h.2⟩, item.reason)])
        else some acc
      | some JsonVal.otherVal => none)
    []

/-- Method `TorrentAgent._parse_detailed_selection` (`ai/agent.py` lines 386-489).
All exception paths are folded into quality-score fallbacks, mirroring the
`try`/`except` structure; the function never raises. -/
def parseDetailedSelection (content : ContentOutcome)
    (results : List TorrentResult) : Option AIDecision :=
  match content with
  | ContentOutcome.noJson =>
    createFallbackDecision results
      "No valid JSON in AI response, selected highest quality score" false
  | ContentOutcome.jsonBad =>
    createFallbackDecision results
      "JSON parse error, selected highest quality score" false
  | ContentOutcome.jsonOk data =>
    match data.selected_index with
    | none =>
      createFallbackDecision results
        "Invalid AI response format, selected highest quality score" false
    | some JsonVal.otherVal =>
      -- `0 <= selected_idx` raises `TypeError`, caught by `except Exception`
      createFallbackDecision results
        "Parse error (TypeError), selected highest quality score" false
    | some (JsonVal.intVal selected_idx) =>
      if h : 0 ≤ selected_idx ∧ selected_idx.toNat < results.length then
        let reasoning := data.reasoning.getD "No reasoning provided"
        match buildCandidateList results (data.top_3.take 3),
            buildCandidateList results (data.rejected_sample.take 5) with
        | some top_candidates, some rejected =>
          some
            { selected_torrent := results.get ⟨selected_idx.toNat, h.2⟩
              selected_index := selected_idx
              reasoning := reasoning
              top_candidates := top_candidates
              rejected := rejected
              fallback_used := false
              album_mismatch := false }
        | _, _ =>
          -- `TypeError` while building candidate lists → `except Exception`
          createFallbackDecision results
            "Parse error (TypeError), selected highest quality score" false
      else
        createFallbackDecision results
          "AI selected invalid index, using quality score"
          (selected_idx = -1)

/-- Outcome of the advisor call in `TorrentAgent.select_best_torrent`:
either the upstream call raised, or it produced a response content. -/
inductive AdvisorOutcome where
  | upstreamError
  | responded (content : ContentOutcome)
deriving DecidableEq, Repr

/-- Method `TorrentAgent.select_best_torrent` (`ai/agent.py` lines 110-152):
raises (`none`) on an empty candidate list, otherwise never raises;
any upstream exception becomes a quality-score fallback. -/
def selectBestTorrent (outcome : AdvisorOutcome)
    (results : List TorrentResult) : Option AIDecision :=
  if results = [] then none
  else
    match outcome with
    | AdvisorOutcome.upstreamError =>
      createFallbackDecision results
        "AI error, selected highest quality score" false
    | AdvisorOutcome.responded content =>
      parseDetailedSelection content results

/-- The advisor outcomes the spec counts as selection failures: upstream
error, no JSON object, JSON decode error, missing `selected_index`,
non-integer `selected_index`, or an out-of-range index. -/
def advisorFailed (outcome : AdvisorOutcome) (len : Nat) : Bool :=
  match outcome with
  | AdvisorOutcome.upstreamError => true
  | AdvisorOutcome.responded ContentOutcome.noJson => true
  | AdvisorOutcome.responded ContentOutcome.jsonBad => true
  | AdvisorOutcome.responded (ContentOutcome.jsonOk data) =>
    match data.selected_index with
    | none => true
    | some JsonVal.otherVal => true
    | some (JsonVal.intVal n) => decide ¬ (0 ≤ n ∧ n.toNat < len)

/-- The advisor outcome "returned `selected_index = -1`". -/
def advisorSaidMinusOne (outcome : AdvisorOutcome) : Bool :=
  match outcome with
  | AdvisorOutcome.responded (ContentOutcome.jsonOk data) =>
    data.selected_index = some (JsonVal.intVal (-1))
  | _ => false

/-! ## `services/search_orchestrator.py`: `_fallback_parse` -/

/-- The `ParsedQuery` dataclass (`models/search.py`). -/
structure ParsedQuery where
  artist : Option String
  album : Option String
  track : Option String
  year : Option Int
  query_type : String
  confidence : ℚ
deriving DecidableEq, Repr

/-- Python's per-character `str.isupper()` for the leading character test
`words[1][0].isupper()` (ASCII semantics). -/
def charIsUpper (c : Char) : Bool :=
  'A' ≤ c && c ≤ 'Z'

/-- Method `SearchOrchestrator._fallback_parse` (`search_orchestrator.py` lines
166-240). -/
def fallbackParse (query : String) : ParsedQuery :=
  match [" - ", " / ", " | "].find? (fun sep => strHas query sep) with
  | some sep =>
    -- `query.split(separator, 1)`
    let parts := splitOnce query sep
    { artist := some (strStrip parts.1)
      album := parts.2.map strStrip
      track := none
      year := none
      query_type := "album"
      confidence := 8/10 }
  | none =>
    let words := splitWords query
    if words.length ≤ 2 then
      { artist := some (String.intercalate " " words)
        album := none
        track := none
        year := none
        query_type := "artist"
        confidence := 1/2 }
    else if words.length = 3 ∨ words.length = 4 then
      { artist := some (words.headD "")
        album := some (String.intercalate " " words.tail)
        track := none
        year := none
        query_type := "album"
        confidence := 6/10 }
    else
      -- two-word artist iff `len(words[0]) <= 3 or words[1][0].isupper()`
      if (words.headD "").length ≤ 3 ∨
          (1 < words.length ∧ charIsUpper (((words.getD 1 "").data).headD ' ')) then
        { artist := some (String.intercalate " " (words.take 2))
          album := some (String.intercalate " " (words.drop 2))
          track := none
          year := none
          query_type := "album"
          confidence := 6/10 }
      else
        { artist := some (words.headD "")
          album := some (String.intercalate " " words.tail)
          track := none
          year := none
          query_type := "album"
          confidence := 6/10 }
where
  /-- Python `query.split(sep, 1)`: split at the first occurrence only. -/
  splitOnce (s sep : String) : String × Option String :=
    splitOnceAux [] s.data sep.data
  /-- Scan for the first occurrence of the separator. -/
  splitOnceAux (acc : List Char) : List Char → List Char → String × Option String
    | [], _ => (⟨acc.reverse⟩, none)
    | h@(c :: t), sep =>
      if listStarts h sep then (⟨acc.reverse⟩, some ⟨h.drop sep.length⟩)
      else splitOnceAux (c :: acc) t sep

/-! ## `cli.py`: `search_with_format_fallback` -/

/-- Function `search_with_format_fallback` (`cli.py` lines 48-87) over an abstract
torrent service `svc` (query and `min_seeders` fixed).  The second
component records the `format_filter` argument of each service call made,
in order. -/
def searchWithFormatFallback (svc : Option String → List α)
    (format_filter : Option String) (strict : Bool) :
    List α × List (Option String) :=
  if optStrTruthy format_filter ∧ ¬ strict then
    let torrents := svc format_filter
    if torrents.isEmpty then (svc none, [format_filter, none])
    else (torrents, [format_filter])
  else
    (svc format_filter, [format_filter])

/-! ## `services/search/metadata.py`: `MetadataExtractor` -/

/-- Regex word character (`\w`, ASCII). -/
def isWordChar (c : Char) : Bool :=
  c.isAlphanum || c = '_'

/-- Case-insensitive initial-segment test (ASCII). -/
def ciStarts (h n : List Char) : Bool :=
  listStarts (h.map Char.toLower) (n.map Char.toLower)

/-- Word boundary after a match: end of string or a non-word character. -/
def boundaryAfter : List Char → Bool
  | [] => true
  | c :: _ => ¬ isWordChar c

/-- Search for `\b(alt₁|alt₂|…)(?:kbps)?\b` (the `kbps` part only when
`optKbps` is set), case-insensitively, leftmost match first and
alternatives in order; returns the captured group in original case.
All alternatives start with a word character, so the leading boundary
holds exactly when the previous character is absent or non-word. -/
def scanAlts (alts : List (List Char)) (optKbps : Bool) :
    Option Char → List Char → Option (List Char)
  | _, [] => none
  | prev, h@(c :: t) =>
    let boundaryBefore :=
      match prev with
      | none => true
      | some p => ¬ isWordChar p
    if boundaryBefore then
      match alts.find? (fun a =>
          ciStarts h a &&
            (let rest := h.drop a.length
             (optKbps && ciStarts rest "kbps".data &&
                boundaryAfter (rest.drop 4)) ||
              boundaryAfter rest)) with
      | some a => some (h.take a.length)
      | none => scanAlts alts optKbps (some c) t
    else scanAlts alts optKbps (some c) t

/-- Method `MetadataExtractor.extract_format` (`metadata.py`):
`\b(FLAC|MP3|AAC|ALAC|OGG|Opus)\b` case-insensitive, uppercased. -/
def extractFormat (title : String) : Option String :=
  if title = "" then none
  else
    (scanAlts (["FLAC", "MP3", "AAC", "ALAC", "OGG", "Opus"].map String.data)
        false none title.data).map
      fun l => pyUpper ⟨l⟩

/-- Method `MetadataExtractor.extract_bitrate` (`metadata.py`):
`\b(320|256|192|V0|V2)(?:kbps)?\b` case-insensitive, uppercased. -/
def extractBitrate (title : String) : Option String :=
  if title = "" then none
  else
    (scanAlts (["320", "256", "192", "V0", "V2"].map String.data)
        true none title.data).map
      fun l => pyUpper ⟨l⟩

/-- Method `MetadataExtractor.extract_source` (`metadata.py`):
`\b(WEB|CD|Vinyl|DVD|BD)\b` case-insensitive; `Vinyl` keeps its
capitalization, the rest are uppercased. -/
def extractSource (title : String) : Option String :=
  if title = "" then none
  else
    (scanAlts (["WEB", "CD", "Vinyl", "DVD", "BD"].map String.data)
        false none title.data).map
      fun l => if pyLower ⟨l⟩ = "vinyl" then "Vinyl" else pyUpper ⟨l⟩

/-! ## `services/search/adapter_jackett.py`: torznab adapter -/

/-- An `<item>` of a well-formed torznab RSS document, as consumed by
`_parse_torznab_xml`: `findtext` results are optional, torznab `attr`
elements carry optional `name` / `value` attributes, `jackettindexer`
is the tag's text when the tag is present. -/
structure TorznabItem where
  title : Option String := none
  link : Option String := none
  attrs : List (Option String × Option String) := []
  size : Option String := none
  pubDate : Option String := none
  category : Option String := none
  jackettindexer : Option String := none
deriving DecidableEq, Repr

/-- The adapter's view of the response body: `ET.fromstring` either raises
`ParseError` or yields a document with a list of `<item>` elements. -/
inductive TorznabXml where
  | malformed
  | wellFormed (items : List TorznabItem)
deriving DecidableEq, Repr

/-- The `attrs` dict of `_parse_torznab_xml`: entries with a truthy `name`
and `value` are inserted in order (later entries overwrite). -/
def attrsEntries (attrs : List (Option String × Option String)) :
    List (String × String) :=
  attrs.filterMap fun p =>
    match p with
    | (some n, some v) => if n ≠ "" ∧ v ≠ "" then some (n, v) else none
    | _ => none

/-- Python `attrs.get(key, default)` against the insertion-ordered dict
(the last binding wins). -/
def attrsGet (attrs : List (Option String × Option String)) (key default : String) :
    String :=
  match ((attrsEntries attrs).reverse.find? fun p => p.1 = key) with
  | some p => p.2
  | none => default

/-- External primitives of the adapter: SHA-1 hex digest, RFC-822 date
parsing (`parsedate_to_datetime`, `none` models any exception) and the
current wall-clock time. -/
structure AdapterExt where
  sha1hex40 : String → String
  parseRfc822 : String → Option ℚ
  now : ℚ

/-- The per-`<item>` body of `_parse_torznab_xml` (`adapter_jackett.py`
lines 150-256): `none` models both the explicit `continue` on a missing
magnet URI and the `except (ValueError, AttributeError)` skip. -/
def parseTorznabItem (ext : AdapterExt) (item : TorznabItem) :
    Option MusicSource := do
  let title := item.title.getD "Unknown"
  let link := item.link.getD ""
  let magnetFromAttr := attrsGet item.attrs "magneturl" ""
  let magnet_link :=
    if magnetFromAttr = "" ∧ strStarts link "magnet:" then link else magnetFromAttr
  if magnet_link = "" ∨ ¬ strStarts magnet_link "magnet:" then none
  else do
    let seeders ← pyInt (attrsGet item.attrs "seeders" "0")
    let leechers ← pyInt (attrsGet item.attrs "peers" "0")
    let sizeTag ← pyInt (item.size.getD "0")
    let size_bytes ←
      if sizeTag = 0 then pyInt (attrsGet item.attrs "size" "0") else pure sizeTag
    let uploaded_at := (ext.parseRfc822 (item.pubDate.getD "")).getD ext.now
    let indexer :=
      match item.jackettindexer with
      | some t => if t ≠ "" then t else attrsGet item.attrs "indexer" "Jackett"
      | none => attrsGet item.attrs "indexer" "Jackett"
    let format_type := extractFormat title
    let bitrate := extractBitrate title
    let format_type :=
      match format_type with
      | some f => some f
      | none =>
        let category_int : Int :=
          match item.category with
          | none => 0
          | some c => if c = "" then 0 else (pyInt c).getD 0
        if category_int ≠ 0 then
          if category_int = 3040 then some "FLAC"
          else if category_int = 3010 then some "MP3"
          else if category_int = 3030 then some "AAC"
          else if category_int = 3000 ∨ category_int = 3050 then
            let title_lower := pyLower title
            if strHas title_lower "flac" ∨ strHas title_lower "24bit" ∨
                strHas title_lower "24-bit" then some "FLAC"
            else if strHas title_lower "mp3" ∨ strHas title_lower "320kbps" ∨
                strHas title_lower "320k" ∨ strHas title_lower "cbr" then some "MP3"
            else if strHas title_lower "aac" then some "AAC"
            else none
          else none
        else none
    let infohash :=
      match btihSearch magnet_link with
      | some hex => pyLower hex
      | none => pyLower (ext.sha1hex40 magnet_link)
    pure (postInit
      { id := infohash
        title := title
        format := format_type
        source_type := SourceType.torrent
        url := magnet_link
        indexer := indexer
        seeders := some seeders
        leechers := some leechers
        size_bytes := some size_bytes
        uploaded_at := some uploaded_at
        bitrate := bitrate
        magnet_link := some magnet_link })

/-- Method `AdapterJackett._parse_torznab_xml` (`adapter_jackett.py` lines
135-261): a `ParseError` on malformed XML is swallowed (`pass`), yielding
an empty result list; malformed items are skipped. -/
def parseTorznabXml (ext : AdapterExt) (xml : TorznabXml) : List MusicSource :=
  match xml with
  | TorznabXml.malformed => []
  | TorznabXml.wellFormed items => items.filterMap (parseTorznabItem ext)

/-- One network attempt of the adapter: the request raised
(`aiohttp.ClientError` / `asyncio.TimeoutError` / any other exception), or
an HTTP response with a status code and a body. -/
inductive FetchOutcome where
  | netError
  | httpResponse (status : Int) (body : TorznabXml)

/-- The retry loop of `AdapterJackett.search` (`adapter_jackett.py` lines
79-133): `attemptsLeft` counts the remaining iterations of
`range(max_retries)`, `attemptIdx` the current attempt number.  Returns
the result list and the updated health record; the function never
raises. -/
def jackettSearchLoop (ext : AdapterExt) (outcomes : Nat → FetchOutcome) :
    Nat → Nat → Health → List MusicSource × Health
  | 0, _, h => ([], updateHealth h false ext.now)
  | attemptsLeft + 1, attemptIdx, h =>
    match outcomes attemptIdx with
    | FetchOutcome.netError =>
      if attemptsLeft = 0 then ([], updateHealth h false ext.now)
      else jackettSearchLoop ext outcomes attemptsLeft (attemptIdx + 1) h
    | FetchOutcome.httpResponse status body =>
      if status ≠ 200 then
        if attemptsLeft = 0 then ([], updateHealth h false ext.now)
        else jackettSearchLoop ext outcomes attemptsLeft (attemptIdx + 1) h
      else
        (parseTorznabXml ext body, updateHealth h true ext.now)

/-- Method `AdapterJackett.search` (`adapter_jackett.py` lines 62-133): empty API
key short-circuits to `[]` without touching health; otherwise the retry
loop runs with `max_retries = 2` for remote base URLs and `1` for
localhost. -/
def jackettSearch (ext : AdapterExt) (base_url api_key : String)
    (outcomes : Nat → FetchOutcome) (h : Health) : List MusicSource × Health :=
  if api_key = "" then ([], h)
  else
    let max_retries := if ¬ strHas base_url "localhost" then 2 else 1
    jackettSearchLoop ext outcomes max_retries 0 h

/-! ## Properties of the stable sort -/

section SortLemmas

variable {α : Type _}

theorem stableInsert_perm (lt : α → α → Bool) (x : α) (l : List α) :
    (stableInsert lt x l).Perm (x :: l) := by
  induction l with
  | nil => simp [stableInsert]
  | cons y ys ih =>
    by_cases h : lt x y
    · simp [stableInsert, h]
    · simp only [stableInsert, h, Bool.false_eq_true, if_false]
      exact (List.Perm.cons y ih).trans (List.Perm.swap x y ys)

theorem stableSort_foldl_perm (lt : α → α → Bool) (l acc : List α) :
    (l.foldl (fun acc x => stableInsert lt x acc) acc).Perm (acc ++ l) := by
  induction l generalizing acc with
  | nil => simp
  | cons x xs ih =>
    simp only [List.foldl_cons]
    refine (ih (stableInsert lt x acc)).trans ?_
    have h1 : (stableInsert lt x acc).Perm (acc ++ [x]) :=
      (stableInsert_perm lt x acc).trans (List.perm_append_singleton x acc).symm
    calc ((stableInsert lt x acc) ++ xs).Perm ((acc ++ [x]) ++ xs) :=
          h1.append_right xs
      _ = acc ++ x :: xs := by simp

theorem stableSort_perm (lt : α → α → Bool) (l : List α) :
    (stableSort lt l).Perm l :=
  stableSort_foldl_perm lt l []

theorem mem_stableInsert (lt : α → α → Bool) (x : α) (l : List α) (z : α) :
    z ∈ stableInsert lt x l ↔ z = x ∨ z ∈ l := by
  rw [List.Perm.mem_iff (stableInsert_perm lt x l)]
  simp

theorem pairwise_stableInsert (lt : α → α → Bool)
    (htrans : ∀ a b c, lt a b = true → lt b c = true → lt a c = true)
    (hasymm : ∀ a b, lt a b = true → lt b a = false)
    (x : α) (l : List α)
    (hl : l.Pairwise (fun a b => lt b a = false)) :
    (stableInsert lt x l).Pairwise (fun a b => lt b a = false) := by
  induction l with
  | nil => simp [stableInsert]
  | cons y ys ih =>
    rcases List.pairwise_cons.mp hl with ⟨hy, hys⟩
    by_cases h : lt x y
    · simp only [stableInsert, h, if_pos]
      refine List.pairwise_cons.mpr ⟨?_, hl⟩
      intro z hz
      rcases List.mem_cons.mp hz with rfl | hz
      · exact hasymm x z h
      · cases hzx : lt z x with
        | false => rfl
        | true =>
          have hzy := htrans z x y hzx h
          rw [hy z hz] at hzy
          simp at hzy
    · simp only [stableInsert, h, Bool.false_eq_true, if_false]
      refine List.pairwise_cons.mpr ⟨?_, ih hys⟩
      intro z hz
      rcases (mem_stableInsert lt x ys z).mp hz with rfl | hz
      · simpa using h
      · exact hy z hz

theorem pairwise_stableSort_foldl (lt : α → α → Bool)
    (htrans : ∀ a b c, lt a b = true → lt b c = true → lt a c = true)
    (hasymm : ∀ a b, lt a b = true → lt b a = false)
    (l acc : List α) (hacc : acc.Pairwise (fun a b => lt b a = false)) :
    (l.foldl (fun acc x => stableInsert lt x acc) acc).Pairwise
      (fun a b => lt b a = false) := by
  induction l generalizing acc with
  | nil => simpa using hacc
  | cons x xs ih =>
    simp only [List.foldl_cons]
    exact ih (stableInsert lt x acc)
      (pairwise_stableInsert lt htrans hasymm x acc hacc)

theorem pairwise_stableSort (lt : α → α → Bool)
    (htrans : ∀ a b c, lt a b = true → lt b c = true → lt a c = true)
    (hasymm : ∀ a b, lt a b = true → lt b a = false)
    (l : List α) :
    (stableSort lt l).Pairwise (fun a b => lt b a = false) :=
  pairwise_stableSort_foldl lt htrans hasymm l [] (by simp)

end SortLemmas

section StabilityLemmas

/-- Score-class membership test used to state stability. -/
def scoreClass (c : ℚ) (r : MusicSource) : Bool :=
  r.quality_score = c

/-- Stability of the engine sort: inserting `x` into a descending-sorted
list appends `x` at the end of its own quality-score class. -/
theorem filter_scoreEq_stableInsert (x : MusicSource) (l : List MusicSource)
    (hl : l.Pairwise (fun a b => scoreGt b a = false)) (c : ℚ) :
    (stableInsert scoreGt x l).filter (scoreClass c) =
      if x.quality_score = c then (l.filter (scoreClass c)) ++ [x]
      else l.filter (scoreClass c) := by
  induction l with
  | nil => by_cases hx : x.quality_score = c <;> simp [stableInsert, scoreClass, hx]
  | cons y ys ih =>
    rcases List.pairwise_cons.mp hl with ⟨hy, hys⟩
    by_cases h : scoreGt x y
    · -- `x` strictly beats `y`, hence everything in `y :: ys`
      simp only [stableInsert, h, if_pos]
      have hlt : y.quality_score < x.quality_score := by
        simpa [scoreGt] using h
      by_cases hx : x.quality_score = c
      · -- nothing of score `c` can occur in `y :: ys`
        have hnone : ∀ z ∈ y :: ys, ¬ (scoreClass c z = true) := by
          intro z hz
          rcases List.mem_cons.mp hz with rfl | hz
          · intro hc
            have : z.quality_score = c := by simpa [scoreClass] using hc
            rw [this, hx] at hlt
            exact absurd hlt (lt_irrefl c)
          · intro hc
            have hzc : z.quality_score = c := by simpa [scoreClass] using hc
            have h1 : scoreGt z y = false := hy z hz
            have h2 : z.quality_score ≤ y.quality_score := by
              have : ¬ (y.quality_score < z.quality_score) := by
                simpa [scoreGt] using h1
              exact not_lt.mp this
            rw [hzc] at h2
            rw [hx] at hlt
            exact absurd (lt_of_le_of_lt h2 hlt) (lt_irrefl c)
        have hemp : (y :: ys).filter (scoreClass c) = [] :=
          List.filter_eq_nil_iff.mpr hnone
        simp [hx, hemp, List.filter_cons, scoreClass]
      · simp [List.filter_cons, scoreClass, hx]
    · simp only [stableInsert, h, Bool.false_eq_true, if_false]
      rw [List.filter_cons, List.filter_cons]
      by_cases hyc : scoreClass c y = true
      · simp only [hyc, if_pos]
        rw [ih hys]
        by_cases hx : x.quality_score = c <;> simp [hx]
      · simp only [Bool.not_eq_true] at hyc
        simp only [hyc, Bool.false_eq_true, if_false]
        rw [ih hys]

/-- Stability over the whole fold: the quality-score classes of the sorted
accumulator extend in input order. -/
theorem filter_scoreEq_stableSort_foldl (l acc : List MusicSource)
    (hacc : acc.Pairwise (fun a b => scoreGt b a = false)) (c : ℚ) :
    (l.foldl (fun acc x => stableInsert scoreGt x acc) acc).filter
        (scoreClass c) =
      acc.filter (scoreClass c) ++ l.filter (scoreClass c) := by
  induction l generalizing acc with
  | nil => simp
  | cons x xs ih =>
    simp only [List.foldl_cons]
    have hins : (stableInsert scoreGt x acc).Pairwise
        (fun a b => scoreGt b a = false) :=
      pairwise_stableInsert scoreGt
        (fun a b c hab hbc => by
          simp only [scoreGt, decide_eq_true_eq] at *
          exact lt_trans hbc hab)
        (fun a b hab => by
          simp only [scoreGt, decide_eq_true_eq, decide_eq_false_iff_not] at *
          exact not_lt.mpr (le_of_lt hab))
        x acc hacc
    rw [ih (stableInsert scoreGt x acc) hins,
      filter_scoreEq_stableInsert x acc hacc c, List.filter_cons]
    by_cases hx : x.quality_score = c
    · have : scoreClass c x = true := by simp [scoreClass, hx]
      simp [hx, this]
    · have : scoreClass c x = false := by simp [scoreClass, hx]
      simp [hx, this]

/-- The engine sort preserves each quality-score class in input order. -/
theorem filter_scoreEq_stableSort (l : List MusicSource) (c : ℚ) :
    (stableSort scoreGt l).filter (scoreClass c) = l.filter (scoreClass c) := by
  have := filter_scoreEq_stableSort_foldl l [] (by simp) c
  simpa [stableSort] using this

end StabilityLemmas

section DedupLemmas

variable (sha1 : String → String)

/-- Identity-class membership test used to state the dedup properties. -/
def idClass (sha1 : String → String) (target : String) (r : MusicSource) : Bool :=
  musicSourceInfohash sha1 r = target

/-- Results whose identity is already in `seen_hashes` never survive the
dedup loop. -/
theorem dedupAux_filter_of_seen (target : String) (htarget : target ≠ "")
    (l : List MusicSource) (seen : List String) (hseen : target ∈ seen) :
    (dedupAux sha1 l seen).filter (idClass sha1 target) = [] := by
  induction l generalizing seen with
  | nil => simp [dedupAux]
  | cons r rest ih =>
    by_cases h0 : musicSourceInfohash sha1 r = ""
    · simp only [dedupAux, h0, if_pos]
      rw [List.filter_cons]
      have : idClass sha1 target r = false := by
        simp [idClass, h0]
        intro hc
        exact absurd hc.symm htarget
      simp only [this, Bool.false_eq_true, if_false]
      exact ih seen hseen
    · simp only [dedupAux, h0, if_neg, Bool.false_eq_true, if_false]
      by_cases hmem : musicSourceInfohash sha1 r ∈ seen
      · simp only [hmem, if_pos]
        exact ih seen hseen
      · simp only [hmem, if_neg, Bool.false_eq_true, if_false]
        rw [List.filter_cons]
        have hne : musicSourceInfohash sha1 r ≠ target := fun hc => hmem (hc ▸ hseen)
        have : idClass sha1 target r = false := by simp [idClass, hne]
        simp only [this, Bool.false_eq_true, if_false]
        exact ih (musicSourceInfohash sha1 r :: seen) (List.mem_cons_of_mem _ hseen)

/-- First occurrence wins: for a non-empty identity not yet seen, the dedup
output restricted to that identity is exactly the first input occurrence. -/
theorem dedupAux_filter_first (target : String) (htarget : target ≠ "")
    (l : List MusicSource) (seen : List String) (hseen : target ∉ seen) :
    (dedupAux sha1 l seen).filter (idClass sha1 target) =
      (l.find? (idClass sha1 target)).toList := by
  induction l generalizing seen with
  | nil => simp [dedupAux]
  | cons r rest ih =>
    by_cases h0 : musicSourceInfohash sha1 r = ""
    · have hcls : idClass sha1 target r = false := by
        simp [idClass, h0]
        intro hc
        exact absurd hc.symm htarget
      simp only [dedupAux, h0, if_pos]
      rw [List.filter_cons, List.find?_cons]
      simp only [hcls, Bool.false_eq_true, if_false]
      exact ih seen hseen
    · simp only [dedupAux, h0, if_neg, Bool.false_eq_true, if_false]
      by_cases hmem : musicSourceInfohash sha1 r ∈ seen
      · have hne : musicSourceInfohash sha1 r ≠ target := fun hc => hseen (hc ▸ hmem)
        have hcls : idClass sha1 target r = false := by simp [idClass, hne]
        simp only [hmem, if_pos]
        rw [List.find?_cons]
        simp only [hcls, Bool.false_eq_true, if_false]
        exact ih seen hseen
      · simp only [hmem, if_neg, Bool.false_eq_true, if_false]
        rw [List.filter_cons, List.find?_cons]
        by_cases hcls : idClass sha1 target r = true
        · have htr : musicSourceInfohash sha1 r = target := by
            simpa [idClass] using hcls
          simp only [hcls, if_pos]
          rw [dedupAux_filter_of_seen sha1 target htarget rest _
            (htr ▸ List.mem_cons_self _ _)]
          simp
        · simp only [Bool.not_eq_true] at hcls
          simp only [hcls, Bool.false_eq_true, if_false]
          have hne : musicSourceInfohash sha1 r ≠ target := by
            simpa [idClass] using hcls
          refine ih (musicSourceInfohash sha1 r :: seen) ?_
          intro hc
          rcases List.mem_cons.mp hc with hc | hc
          · exact hne hc.symm
          · exact hseen hc

/-- Results with an empty identity pass the dedup loop untouched. -/
theorem dedupAux_filter_empty (l : List MusicSource) (seen : List String) :
    (dedupAux sha1 l seen).filter (idClass sha1 "") =
      l.filter (idClass sha1 "") := by
  induction l generalizing seen with
  | nil => simp [dedupAux]
  | cons r rest ih =>
    by_cases h0 : musicSourceInfohash sha1 r = ""
    · simp only [dedupAux, h0, if_pos]
      rw [List.filter_cons, List.filter_cons]
      have : idClass sha1 "" r = true := by simp [idClass, h0]
      simp only [this, if_pos]
      rw [ih seen]
    · have hcls : idClass sha1 "" r = false := by simp [idClass, h0]
      simp only [dedupAux, h0, if_neg, Bool.false_eq_true, if_false]
      by_cases hmem : musicSourceInfohash sha1 r ∈ seen
      · simp only [hmem, if_pos]
        rw [List.filter_cons]
        simp only [hcls, Bool.false_eq_true, if_false]
        exact ih seen
      · simp only [hmem, if_neg, Bool.false_eq_true, if_false]
        rw [List.filter_cons, List.filter_cons]
        simp only [hcls, Bool.false_eq_true, if_false]
        rw [ih (musicSourceInfohash sha1 r :: seen)]

/-- Every non-empty identity in the dedup output avoids the `seen` set. -/
theorem dedupAux_mem_not_seen (l : List MusicSource) (seen : List String)
    (x : MusicSource) (hx : x ∈ dedupAux sha1 l seen)
    (hne : musicSourceInfohash sha1 x ≠ "") :
    musicSourceInfohash sha1 x ∉ seen := by
  induction l generalizing seen with
  | nil => simp [dedupAux] at hx
  | cons r rest ih =>
    by_cases h0 : musicSourceInfohash sha1 r = ""
    · simp only [dedupAux, h0, if_pos] at hx
      rcases List.mem_cons.mp hx with rfl | hx
      · exact absurd h0 hne
      · exact ih seen hx
    · simp only [dedupAux, h0, if_neg, Bool.false_eq_true, if_false] at hx
      by_cases hmem : musicSourceInfohash sha1 r ∈ seen
      · simp only [hmem, if_pos] at hx
        exact ih seen hx
      · simp only [hmem, if_neg, Bool.false_eq_true, if_false] at hx
        rcases List.mem_cons.mp hx with rfl | hx
        · exact hmem
        · intro hc
          exact ih (musicSourceInfohash sha1 r :: seen) hx
            (List.mem_cons_of_mem _ hc)

/-- The dedup output has pairwise distinct non-empty identities. -/
theorem dedupAux_pairwise (l : List MusicSource) (seen : List String) :
    (dedupAux sha1 l seen).Pairwise (fun a b =>
      musicSourceInfohash sha1 a ≠ "" → musicSourceInfohash sha1 b ≠ "" →
        musicSourceInfohash sha1 a ≠ musicSourceInfohash sha1 b) := by
  induction l generalizing seen with
  | nil => simp [dedupAux]
  | cons r rest ih =>
    by_cases h0 : musicSourceInfohash sha1 r = ""
    · simp only [dedupAux, h0, if_pos]
      refine List.pairwise_cons.mpr ⟨?_, ih seen⟩
      intro z _ ha _
      exact absurd h0 ha
    · simp only [dedupAux, h0, if_neg, Bool.false_eq_true, if_false]
      by_cases hmem : musicSourceInfohash sha1 r ∈ seen
      · simp only [hmem, if_pos]
        exact ih seen
      · simp only [hmem, if_neg, Bool.false_eq_true, if_false]
        refine List.pairwise_cons.mpr
          ⟨?_, ih (musicSourceInfohash sha1 r :: seen)⟩
        intro z hz _ hbz
        have := dedupAux_mem_not_seen sha1 rest
          (musicSourceInfohash sha1 r :: seen) z hz hbz
        intro hc
        exact this (hc ▸ List.mem_cons_self _ _)

end DedupLemmas

section MaxLemmas

variable {α : Type _} (key : α → ℚ)

/-- Predicate: `x` is the first element of `l` attaining the maximum of `key`:
everything before it is strictly smaller, everything after it is no
larger. -/
def FirstMaxSplit (key : α → ℚ) (l : List α) (x : α) : Prop :=
  ∃ l₁ l₂, l = l₁ ++ x :: l₂ ∧ (∀ y ∈ l₁, key y < key x) ∧
    ∀ y ∈ l₂, key y ≤ key x

/-- The fold inside `pyMaxBy` (Python `max`) keeps the first element
attaining the maximum key. -/
theorem foldl_max_firstMaxSplit (x : α) (xs : List α) :
    FirstMaxSplit key (x :: xs)
      (xs.foldl (fun best y => if key best < key y then y else best) x) := by
  induction xs generalizing x with
  | nil => exact ⟨[], [], rfl, by simp, by simp⟩
  | cons z rest ih =>
    simp only [List.foldl_cons]
    by_cases h : key x < key z
    · simp only [h, if_pos]
      rcases ih z with ⟨l₁, l₂, heq, hlt, hle⟩
      refine ⟨x :: l₁, l₂, by rw [List.cons_append, ← heq], ?_, hle⟩
      intro y hy
      rcases List.mem_cons.mp hy with rfl | hy
      · -- `key y < key z ≤ key m` where `m` is the fold over `z :: rest`
        cases l₁ with
        | nil =>
          injection heq with h1 _
          rw [← h1]
          exact h
        | cons a as =>
          injection heq with h1 _
          exact lt_trans h (h1 ▸ hlt a (List.mem_cons_self a as))
      · exact hlt y hy
    · simp only [h, if_neg, Bool.false_eq_true, if_false]
      rcases ih x with ⟨l₁, l₂, heq, hlt, hle⟩
      cases l₁ with
      | nil =>
        -- the fold result is `x` itself: `z` goes to the non-strict side
        injection heq with h1 h2
        refine ⟨[], z :: rest, by rw [List.nil_append, ← h1], by simp, ?_⟩
        intro y hy
        rcases List.mem_cons.mp hy with rfl | hy
        · rw [← h1]; exact not_lt.mp h
        · rw [h2] at hy
          exact hle y hy
      | cons a as =>
        -- the fold result lies inside `rest`: `z` joins the strict side
        injection heq with h1 h2
        subst h1
        refine ⟨x :: z :: as, l₂, congrArg (fun t => x :: z :: t) h2, ?_, hle⟩
        intro y hy
        rcases List.mem_cons.mp hy with rfl | hy
        · exact hlt y (List.mem_cons_self _ _)
        · rcases List.mem_cons.mp hy with rfl | hy
          · exact lt_of_le_of_lt (not_lt.mp h) (hlt x (List.mem_cons_self _ _))
          · exact hlt y (List.mem_cons_of_mem _ hy)

/-- Function `pyMaxBy` on a non-empty list returns the first maximum. -/
theorem pyMaxBy_firstMaxSplit (x : α) (xs : List α) (m : α)
    (hm : pyMaxBy key (x :: xs) = some m) :
    FirstMaxSplit key (x :: xs) m := by
  have := foldl_max_firstMaxSplit key x xs
  simp only [pyMaxBy, Option.some.injEq] at hm
  rwa [hm] at this

end MaxLemmas

/-! ## Claim C2: MusicBrainz over-fetch and local ordering -/

/-- Propositional form of the MusicBrainz sort key comparison. -/
theorem mbKeyLt_iff (a b : MusicBrainzResult) :
    mbKeyLt a b = true ↔
      (-a.score < -b.score) ∨ (-a.score = -b.score ∧ a.mbid < b.mbid) := by
  simp [mbKeyLt]

/-- Transitivity of the MusicBrainz sort key comparison. -/
theorem mbKeyLt_trans (a b c : MusicBrainzResult)
    (hab : mbKeyLt a b = true) (hbc : mbKeyLt b c = true) :
    mbKeyLt a c = true := by
  rw [mbKeyLt_iff] at *
  rcases hab with h1 | ⟨h1, h1'⟩ <;> rcases hbc with h2 | ⟨h2, h2'⟩
  · exact Or.inl (lt_trans h1 h2)
  · exact Or.inl (h2 ▸ h1)
  · exact Or.inl (h1 ▸ h2)
  · exact Or.inr ⟨h1.trans h2, lt_trans h1' h2'⟩

/-- Asymmetry of the MusicBrainz sort key comparison. -/
theorem mbKeyLt_asymm (a b : MusicBrainzResult)
    (hab : mbKeyLt a b = true) : mbKeyLt b a = false := by
  cases hba : mbKeyLt b a with
  | false => rfl
  | true =>
    rw [mbKeyLt_iff] at hab hba
    rcases hab with h1 | ⟨h1, h1'⟩ <;> rcases hba with h2 | ⟨h2, h2'⟩
    · exact absurd (lt_trans h1 h2) (lt_irrefl _)
    · exact absurd (h2 ▸ h1) (lt_irrefl _)
    · exact absurd (h1 ▸ h2) (lt_irrefl _)
    · exact absurd (lt_trans h1' h2') (lt_irrefl _)

/-- C2, counterexample: the code computes
`fetch_limit = min(100, max(100, limit * 5))`, which is `100` even when
`limit = 50`, whereas the claim's `max(100, limit × 5)` would be `250`. -/
theorem c2_overfetch_counterexample :
    mbFetchLimit 50 = 100 ∧ max 100 (50 * 5) = (250 : Int) ∧ (100 : Int) ≠ 250 := by
  decide

/-- C2 (amended): `search_recordings` always requests exactly 100 upstream
results (`min(100, max(100, limit × 5))`); the parsed results are sorted
locally by score descending with `mbid` ascending as tie-break, and the
first `limit` are returned, so identical parsed upstream data yields an
identical ordered list. -/
theorem c2_local_order (limit : Int) (recs : List MusicBrainzResult) (k : Nat) :
    mbFetchLimit limit = 100 ∧
    mbLocalOrder recs k = (stableSort mbKeyLt recs).take k ∧
    (stableSort mbKeyLt recs).Perm recs ∧
    (mbLocalOrder recs k).Pairwise (fun a b =>
      b.score ≤ a.score ∧ (a.score = b.score → ¬ (b.mbid < a.mbid))) := by
  refine ⟨?_, rfl, stableSort_perm mbKeyLt recs, ?_⟩
  · simp only [mbFetchLimit]
    exact min_eq_left (le_max_left _ _)
  · have hs := pairwise_stableSort mbKeyLt mbKeyLt_trans mbKeyLt_asymm recs
    have hs' : (stableSort mbKeyLt recs).Pairwise (fun a b =>
        b.score ≤ a.score ∧ (a.score = b.score → ¬ (b.mbid < a.mbid))) := by
      refine hs.imp ?_
      intro a b h
      have hnot : ¬ (mbKeyLt b a = true) := by simp [h]
      rw [mbKeyLt_iff] at hnot
      push_neg at hnot
      rcases hnot with ⟨h1, h2⟩
      exact ⟨by omega, fun hScore => h2 (by omega)⟩
    exact hs'.sublist (List.take_sublist k _)

/-! ## Claim C9: CLI format fallback and the `strict` flag -/

/-- Abstract torrent service used to exhibit the C9 counterexample: the
unfiltered search returns one result, any filtered search returns none. -/
def c9svc : Option String → List Nat
  | none => [1]
  | some _ => []

/-- C9, counterexample: with the non-null but empty `format_filter = ""`
and `strict = false`, the code takes the single-search branch (Python
truthiness: `if format_filter`), performing exactly one search and never
re-running without the filter, although that search yields zero results. -/
theorem c9_empty_filter_counterexample :
    searchWithFormatFallback c9svc (some "") false = ([], [some ""]) ∧
    c9svc (some "") = [] ∧ c9svc none = [1] := by
  decide

/-- C9 (amended): for a *non-empty* `format_filter F`: when `strict` is
false the search first runs with the filter and, exactly when that yields
zero results, reruns once with no filter and returns that second result;
when `strict` is true only the single filtered search runs, even if it is
empty. -/
theorem c9_format_fallback {α : Type} (svc : Option String → List α)
    (f : String) (hf : f ≠ "") :
    (svc (some f) = [] →
      searchWithFormatFallback svc (some f) false = (svc none, [some f, none])) ∧
    (svc (some f) ≠ [] →
      searchWithFormatFallback svc (some f) false = (svc (some f), [some f])) ∧
    searchWithFormatFallback svc (some f) true = (svc (some f), [some f]) := by
  refine ⟨?_, ?_, ?_⟩
  · intro hempty
    simp [searchWithFormatFallback, optStrTruthy, hf, hempty]
  · intro hne
    simp [searchWithFormatFallback, optStrTruthy, hf,
      List.isEmpty_iff, hne]
  · simp [searchWithFormatFallback]

/-- C9 witness: instantiation at `F = "FLAC"` with a service that is empty
under the filter and non-empty without it. -/
theorem c9_format_fallback_witness :
    (c9svc (some "FLAC") = [] →
      searchWithFormatFallback c9svc (some "FLAC") false =
        (c9svc none, [some "FLAC", none])) ∧
    (c9svc (some "FLAC") ≠ [] →
      searchWithFormatFallback c9svc (some "FLAC") false =
        (c9svc (some "FLAC"), [some "FLAC"])) ∧
    searchWithFormatFallback c9svc (some "FLAC") true =
      (c9svc (some "FLAC"), [some "FLAC"]) :=
  c9_format_fallback c9svc "FLAC" (by decide)

/-! ## Claim C6: circuit-breaker health monotonicity -/

/-- Updates via `_update_health` never change the configuration fields. -/
theorem applyFailures_config (h : Health) (ts : List ℚ) :
    (applyFailures h ts).threshold = h.threshold ∧
    (applyFailures h ts).cooldown = h.cooldown := by
  induction ts generalizing h with
  | nil => exact ⟨rfl, rfl⟩
  | cons t ts ih =>
    simpa [applyFailures, updateHealth] using ih (updateHealth h false t)

/-- Each failure observation increments the consecutive-failure counter. -/
theorem applyFailures_count (h : Health) (ts : List ℚ) :
    (applyFailures h ts).consecutive_failures =
      h.consecutive_failures + ts.length := by
  induction ts generalizing h with
  | nil => simp [applyFailures]
  | cons t ts ih =>
    have := ih (updateHealth h false t)
    simp only [applyFailures, List.foldl_cons] at *
    rw [this]
    simp [updateHealth]
    omega

/-- A trailing failure observation stamps `last_failure`. -/
theorem applyFailures_snoc (h : Health) (ts : List ℚ) (t : ℚ) :
    applyFailures h (ts ++ [t]) = updateHealth (applyFailures h ts) false t := by
  simp [applyFailures, List.foldl_append]

/-- C6 (confirmed): after `k ≥ threshold` consecutive failures the adapter
reports `healthy = false` while the time since the last failure is below
the cooldown; once it reaches the cooldown the next `is_healthy` check
returns `true` and resets the counter to `0`; and any success observation
resets the counter to `0`. -/
theorem c6_health_monotonicity (h : Health) (ts : List ℚ) (t now now2 : ℚ)
    (s : Health)
    (hk : h.threshold ≤ h.consecutive_failures + ts.length + 1) :
    (now - t < h.cooldown → (isHealthy (applyFailures h (ts ++ [t])) now).1 = false) ∧
    (h.cooldown ≤ now - t →
      (isHealthy (applyFailures h (ts ++ [t])) now).1 = true ∧
      ((isHealthy (applyFailures h (ts ++ [t])) now).2).consecutive_failures = 0) ∧
    (updateHealth s true now2).consecutive_failures = 0 := by
  have hsnoc := applyFailures_snoc h ts t
  have hcount : (applyFailures h (ts ++ [t])).consecutive_failures =
      h.consecutive_failures + ts.length + 1 := by
    rw [applyFailures_count]
    simp only [List.length_append, List.length_cons, List.length_nil]
    omega
  have hthr : (applyFailures h (ts ++ [t])).threshold = h.threshold :=
    (applyFailures_config h (ts ++ [t])).1
  have hcd : (applyFailures h (ts ++ [t])).cooldown = h.cooldown :=
    (applyFailures_config h (ts ++ [t])).2
  have hlast : (applyFailures h (ts ++ [t])).last_failure = t := by
    rw [hsnoc]
    simp [updateHealth]
  have htrip : (applyFailures h (ts ++ [t])).threshold ≤
      (applyFailures h (ts ++ [t])).consecutive_failures := by
    rw [hcount, hthr]
    exact hk
  refine ⟨?_, ?_, by simp [updateHealth]⟩
  · intro hcool
    simp only [isHealthy]
    rw [if_pos htrip, hlast, hcd, if_pos hcool]
  · intro hcool
    simp only [isHealthy]
    rw [if_pos htrip, hlast, hcd, if_neg (not_lt.mpr hcool)]
    exact ⟨rfl, rfl⟩

/-- C6 witness: a tripped adapter (3 failures, threshold 3, cooldown 300)
observed before and after cooldown expiry. -/
theorem c6_health_monotonicity_witness :
    let h : Health :=
      { consecutive_failures := 0, last_success := 0, last_failure := 0 }
    (10 - 2 < h.cooldown →
      (isHealthy (applyFailures h ([0, 1] ++ [2])) 10).1 = false) ∧
    (h.cooldown ≤ 10 - 2 →
      (isHealthy (applyFailures h ([0, 1] ++ [2])) 10).1 = true ∧
      ((isHealthy (applyFailures h ([0, 1] ++ [2])) 10).2).consecutive_failures = 0) ∧
    (updateHealth h true 5).consecutive_failures = 0 :=
  c6_health_monotonicity
    { consecutive_failures := 0, last_success := 0, last_failure := 0 }
    [0, 1] 2 10 5
    { consecutive_failures := 0, last_success := 0, last_failure := 0 }
    (by decide)

/-! ## Claim C3: malformed torznab payload -/

/-- Concrete external primitives for the C3 counterexample. -/
def c3ext : AdapterExt :=
  { sha1hex40 := fun _ => "", parseRfc822 := fun _ => none, now := 7 }

/-- Health record with one prior failure, for the C3 counterexample. -/
def c3health : Health :=
  { consecutive_failures := 1, last_success := 0, last_failure := 0 }

/-- C3, counterexample: an HTTP 200 response whose body is not valid XML
makes `search` return `[]`, but the health update records a success — the
`consecutive_failures` counter is reset from 1 to 0, not incremented
to 2. -/
theorem c3_malformed_counterexample :
    (jackettSearch c3ext "http://remote.example" "key"
        (fun _ => FetchOutcome.httpResponse 200 TorznabXml.malformed)
        c3health).1 = [] ∧
    (jackettSearch c3ext "http://remote.example" "key"
        (fun _ => FetchOutcome.httpResponse 200 TorznabXml.malformed)
        c3health).2.consecutive_failures = 0 ∧
    c3health.consecutive_failures + 1 = 2 := by
  decide

/-- C3 (amended): when the remote call completes with HTTP 200 but a
malformed payload, the adapter raises nothing and returns an empty list —
but the outcome is recorded as a *success*: `_update_health(success=True)`
runs and `consecutive_failures` is reset to 0 (not incremented).  Only
network errors, timeouts and non-200 statuses count as failures. -/
theorem c3_malformed_is_success (ext : AdapterExt) (base_url api_key : String)
    (outcomes : Nat → FetchOutcome) (h : Health)
    (hkey : api_key ≠ "")
    (hfirst : outcomes 0 = FetchOutcome.httpResponse 200 TorznabXml.malformed) :
    jackettSearch ext base_url api_key outcomes h =
      ([], updateHealth h true ext.now) ∧
    (updateHealth h true ext.now).consecutive_failures = 0 := by
  constructor
  · simp only [jackettSearch, hkey, if_neg]
    by_cases hloc : strHas base_url "localhost"
    · simp only [hloc, not_true, Bool.false_eq_true, if_false, jackettSearchLoop,
        hfirst]
      norm_num [parseTorznabXml]
    · simp only [hloc, not_false_iff, Bool.not_eq_true, jackettSearchLoop, hfirst]
      norm_num [parseTorznabXml]
  · simp [updateHealth]

/-- C3 witness: the amended behaviour at the concrete counterexample
input. -/
theorem c3_malformed_is_success_witness :
    (jackettSearch c3ext "http://remote.example" "key"
        (fun _ => FetchOutcome.httpResponse 200 TorznabXml.malformed) c3health =
      ([], updateHealth c3health true c3ext.now)) ∧
    (updateHealth c3health true c3ext.now).consecutive_failures = 0 :=
  c3_malformed_is_success c3ext "http://remote.example" "key"
    (fun _ => FetchOutcome.httpResponse 200 TorznabXml.malformed) c3health
    (by decide) rfl

/-! ## Claim C10: quality-score bounds and auto-calculation -/

/-- Every branch of the torrent format bonus yields at least 80. -/
theorem torrentFormatBonus_ge (s : MusicSource) :
    80 ≤ calcTorrentFormatBonus s := by
  unfold calcTorrentFormatBonus
  cases s.format with
  | none => norm_num
  | some f => repeat' split <;> norm_num

/-- Every branch of the codec fall-through bonus yields at least 80. -/
theorem streamingFromCodec_ge (s : MusicSource) :
    80 ≤ calcStreamingCodecBonus.calcStreamingCodecBonusFromCodec s := by
  unfold calcStreamingCodecBonus.calcStreamingCodecBonusFromCodec
  repeat' split <;> norm_num

/-- Every branch of the streaming codec bonus yields at least 80. -/
theorem streamingCodecBonus_ge (s : MusicSource) :
    80 ≤ calcStreamingCodecBonus s := by
  unfold calcStreamingCodecBonus
  split
  · dsimp only
    split
    · norm_num
    · split
      · norm_num
      · split
        · norm_num
        · split
          · norm_num
          · split
            · norm_num
            · exact streamingFromCodec_ge s
  · exact streamingFromCodec_ge s

/-- The numeric value obtained from the bitrate string exactly as the
bitrate bonus computes it (`lower`, strip `kbps`/`k`, `strip`, `int`). -/
def musicSourceBitrateParsed (s : MusicSource) : Option Int :=
  s.bitrate.bind fun br =>
    pyInt (strStrip (strReplace (strReplace (pyLower br) "kbps" "") "k" ""))

/-- The bitrate bonus is non-negative when the parsed bitrate is. -/
theorem bitrateBonus_nonneg (s : MusicSource)
    (hbr : 0 ≤ (musicSourceBitrateParsed s).getD 0) :
    0 ≤ calcBitrateBonus s := by
  unfold calcBitrateBonus
  cases hb : s.bitrate with
  | none => norm_num
  | some br =>
    by_cases hbe : br = ""
    · simp only [hbe, if_pos]
      norm_num
    · simp only [hbe, if_neg, Bool.false_eq_true, if_false]
      cases hp : pyInt (strStrip (strReplace (strReplace (pyLower br) "kbps" "") "k" "")) with
      | none => norm_num
      | some n =>
        have hn : 0 ≤ n := by
          have : musicSourceBitrateParsed s = some n := by
            simp [musicSourceBitrateParsed, hb, hp]
          rw [this] at hbr
          simpa using hbr
        refine le_min ?_ (by norm_num)
        have : (0 : ℚ) ≤ (n : ℚ) := by exact_mod_cast hn
        positivity

/-- The magnet/url back-filling preserves every scoring input and the
stored score. -/
theorem postInitFix_fields (s : MusicSource) :
    (postInitFix s).quality_score = s.quality_score ∧
    (postInitFix s).title = s.title ∧
    (postInitFix s).format = s.format ∧
    (postInitFix s).source_type = s.source_type ∧
    (postInitFix s).seeders = s.seeders ∧
    (postInitFix s).size_bytes = s.size_bytes ∧
    (postInitFix s).codec = s.codec ∧
    (postInitFix s).bitrate = s.bitrate := by
  unfold postInitFix
  repeat' split
  all_goals exact ⟨rfl, rfl, rfl, rfl, rfl, rfl, rfl, rfl⟩

/-- The quality score is a function of the scoring inputs only. -/
theorem calculateQualityScore_congr (s₁ s₂ : MusicSource)
    (h1 : s₁.title = s₂.title) (h2 : s₁.format = s₂.format)
    (h3 : s₁.source_type = s₂.source_type) (h4 : s₁.seeders = s₂.seeders)
    (h5 : s₁.size_bytes = s₂.size_bytes) (h6 : s₁.codec = s₂.codec)
    (h7 : s₁.bitrate = s₂.bitrate) :
    calculateQualityScore s₁ = calculateQualityScore s₂ := by
  unfold calculateQualityScore calcTorrentFormatBonus calcStreamingCodecBonus
    calcStreamingCodecBonus.calcStreamingCodecBonusFromCodec calcBitrateBonus
  rw [h1, h2, h3, h4, h5, h6, h7]

/-- Method `__post_init__` leaves a non-zero score unchanged and otherwise
replaces it by the calculated score (the magnet/url back-filling does not
affect any scoring input). -/
theorem postInit_score (s : MusicSource) :
    (postInit s).quality_score =
      if s.quality_score = 0 then calculateQualityScore s else s.quality_score := by
  obtain ⟨hq, h1, h2, h3, h4, h5, h6, h7⟩ := postInitFix_fields s
  have hc : calculateQualityScore (postInitFix s) = calculateQualityScore s :=
    calculateQualityScore_congr _ _ h1 h2 h3 h4 h5 h6 h7
  unfold postInit
  simp only []
  rw [hq]
  split
  · exact hc
  · exact hq

/-- C10, counterexample: a torrent `MusicSource` constructed with the
default score `0.0` and `seeders = -40` keeps `quality_score = 0` — the
negative seeder bonus cancels the format bonus, so the recomputed score is
`0`, not in `[80, 1000]`. -/
theorem c10_zero_score_counterexample :
    (postInit { id := "x", title := "t", seeders := some (-40) }).quality_score
      = 0 := by
  rw [postInit_score]
  norm_num [calculateQualityScore, calcTorrentFormatBonus, optIntTruthy,
    optStrTruthy, min_def]

/-- C10 (amended): provided the numeric fields are non-negative (seeders,
size in bytes, and the numeric value parsed from the bitrate string — as
for every real adapter result), `calculate_quality_score` lies in
`[80, 1000]`, streams score at least `130`, the constructor replaces a
`0.0` score by the calculated one, and no such freshly constructed
`MusicSource` carries `quality_score = 0`. -/
theorem c10_quality_bounds (s : MusicSource)
    (hseed : 0 ≤ s.seeders.getD 0)
    (hsize : 0 ≤ s.size_bytes.getD 0)
    (hbr : 0 ≤ (musicSourceBitrateParsed s).getD 0) :
    80 ≤ calculateQualityScore s ∧ calculateQualityScore s ≤ 1000 ∧
    (s.source_type ≠ SourceType.torrent → 130 ≤ calculateQualityScore s) ∧
    (s.quality_score = 0 → (postInit s).quality_score = calculateQualityScore s) ∧
    (postInit s).quality_score ≠ 0 := by
  have hseedQ : (0 : ℚ) ≤ (s.seeders.getD 0 : ℚ) := by exact_mod_cast hseed
  have hsizeQ : (0 : ℚ) ≤ (s.size_bytes.getD 0 : ℚ) := by exact_mod_cast hsize
  have hmain : 80 ≤ calculateQualityScore s ∧
      (s.source_type ≠ SourceType.torrent → 130 ≤ calculateQualityScore s) := by
    unfold calculateQualityScore
    by_cases ht : s.source_type = SourceType.torrent
    · simp only [ht, if_pos]
      constructor
      · refine le_min ?_ (by norm_num)
        have h1 := torrentFormatBonus_ge s
        have h2 : (0 : ℚ) ≤
            (if optIntTruthy s.seeders = true
              then min ((s.seeders.getD 0 : ℚ) * 2) 100 else 0) := by
          split
          · exact le_min (by linarith) (by norm_num)
          · norm_num
        have h3 : (0 : ℚ) ≤
            min ((if optIntTruthy s.size_bytes = true
              then (s.size_bytes.getD 0 : ℚ) / (1024 * 1024) else 0) / 10) 50 := by
          refine le_min ?_ (by norm_num)
          split
          · positivity
          · norm_num
        linarith
      · intro hc
        exact absurd rfl hc
    · simp only [ht, if_neg, Bool.false_eq_true, if_false]
      have h1 := streamingCodecBonus_ge s
      have h2 := bitrateBonus_nonneg s hbr
      constructor
      · exact le_min (by linarith) (by norm_num)
      · intro _
        exact le_min (by linarith) (by norm_num)
  have hub : calculateQualityScore s ≤ 1000 := by
    unfold calculateQualityScore
    split <;> exact min_le_right _ _
  refine ⟨hmain.1, hub, hmain.2, ?_, ?_⟩
  · intro h0
    rw [postInit_score, if_pos h0]
  · rw [postInit_score]
    split
    · have := hmain.1
      intro hc
      rw [hc] at this
      norm_num at this
    · assumption

/-- C10 witness: a realistic torrent result (10 seeders, 50 MB, no
bitrate) satisfies the bounds. -/
theorem c10_quality_bounds_witness :
    let s : MusicSource :=
      { id := "x", title := "t", seeders := some 10,
        size_bytes := some 52428800 }
    80 ≤ calculateQualityScore s ∧ calculateQualityScore s ≤ 1000 ∧
    (s.source_type ≠ SourceType.torrent → 130 ≤ calculateQualityScore s) ∧
    (s.quality_score = 0 → (postInit s).quality_score = calculateQualityScore s) ∧
    (postInit s).quality_score ≠ 0 :=
  c10_quality_bounds
    { id := "x", title := "t", seeders := some 10, size_bytes := some 52428800 }
    (by decide) (by decide) (by decide)

/-! ## Claim C1: output order determined by (quality_score, identity)? -/

/-- Two adapter results with equal quality scores and distinct identities. -/
def c1r1 : MusicSource :=
  { id := "aa", title := "Album A", format := some "FLAC",
    url := "magnet:?xt=urn:btih:aa", quality_score := 500,
    magnet_link := some "magnet:?xt=urn:btih:aa" }

/-- Second result: same quality score, different identity. -/
def c1r2 : MusicSource :=
  { id := "bb", title := "Album B", format := some "FLAC",
    url := "magnet:?xt=urn:btih:bb", quality_score := 500,
    magnet_link := some "magnet:?xt=urn:btih:bb" }

/-- C1, counterexample: the same multiset of adapter results, concatenated
in the two possible adapter orders, produces two *different* output
orders: the stable sort keys only on `quality_score`, so equal-score
results keep their input order and no identity tie-break exists. -/
theorem c1_order_counterexample :
    engineSearch (fun _ => "") [c1r1, c1r2] none 0 = [c1r1, c1r2] ∧
    engineSearch (fun _ => "") [c1r2, c1r1] none 0 = [c1r2, c1r1] ∧
    c1r1.quality_score = c1r2.quality_score ∧
    c1r1 ≠ c1r2 := by
  decide

/-- C1 (amended): the output of `SearchEngine.search` is sorted by
`quality_score` descending, and within each quality-score class the
concatenated input order is preserved (Python's sort is stable, with no
secondary key): the output order is fully determined by each result's
quality score together with its position in the adapter concatenation —
not by identity — so permuting the adapters can permute equal-score
results. -/
theorem c1_sort_stable (sha1 : String → String) (l : List MusicSource)
    (ff : Option String) (ms : Int) (c : ℚ) :
    (engineSearch sha1 l ff ms).Pairwise
      (fun a b => b.quality_score ≤ a.quality_score) ∧
    (engineSearch sha1 l ff ms).filter (scoreClass c) =
      (formatFilterStage ff (seedersFilter ms (dedupByInfohash sha1 l))).filter
        (scoreClass c) ∧
    (engineSearch sha1 l ff ms).Perm
      (formatFilterStage ff (seedersFilter ms (dedupByInfohash sha1 l))) := by
  refine ⟨?_, filter_scoreEq_stableSort _ c, stableSort_perm _ _⟩
  have hs := pairwise_stableSort scoreGt
    (fun a b c hab hbc => by
      simp only [scoreGt, decide_eq_true_eq] at *
      exact lt_trans hbc hab)
    (fun a b hab => by
      simp only [scoreGt, decide_eq_true_eq, decide_eq_false_iff_not] at *
      exact not_lt.mpr (le_of_lt hab))
    (formatFilterStage ff (seedersFilter ms (dedupByInfohash sha1 l)))
  refine hs.imp ?_
  intro a b h
  simp only [scoreGt, decide_eq_false_iff_not] at h
  exact not_lt.mp h

/-! ## Claim C4: format filter semantics -/

/-- Python `str.upper` produces the empty string only from the empty
string. -/
theorem pyUpper_eq_empty_iff (s : String) : pyUpper s = "" ↔ s = "" := by
  cases s with
  | mk data =>
    simp only [pyUpper, String.ext_iff]
    cases data <;> simp

/-- C4, counterexample: `SearchEngine.search` itself does *not* treat `"*"`
as a wildcard — with `format_filter = "*"` a FLAC result is filtered out
(the engine compares formats literally), while the same call with no
filter keeps it. -/
theorem c4_wildcard_counterexample :
    engineSearch (fun _ => "") [c1r1] (some "*") 0 = [] ∧
    engineSearch (fun _ => "") [c1r1] none 0 = [c1r1] ∧
    c1r1.format = some "FLAC" := by
  decide

/-- C4 (amended): the engine keeps all results when `format_filter` is
unset or empty; the wildcard `"*"` is normalized to "unset" by the CLI
caller *before* it reaches the engine (the engine itself treats `"*"` as a
literal format string); and for a non-empty non-wildcard filter `F` the
engine output contains exactly the surviving (deduplicated, seeder-
filtered) results whose format is non-null and equals `F`
case-insensitively. -/
theorem c4_format_filter (sha1 : String → String) (l : List MusicSource)
    (ms : Int) (f : String) (hf : f ≠ "") (r : MusicSource) :
    formatFilterStage none l = l ∧
    formatFilterStage (some "") l = l ∧
    cliNormalizeFormat (some "*") = none ∧
    engineSearch sha1 l (cliNormalizeFormat (some "*")) ms =
      engineSearch sha1 l none ms ∧
    (r ∈ engineSearch sha1 l (some f) ms ↔
      (r ∈ seedersFilter ms (dedupByInfohash sha1 l) ∧
        r.format ≠ none ∧ pyUpper (r.format.getD "") = pyUpper f)) := by
  refine ⟨by simp [formatFilterStage, optStrTruthy],
    by simp [formatFilterStage, optStrTruthy], rfl, rfl, ?_⟩
  rw [show engineSearch sha1 l (some f) ms = stableSort scoreGt
      (formatFilterStage (some f) (seedersFilter ms (dedupByInfohash sha1 l)))
    from rfl]
  rw [List.Perm.mem_iff (stableSort_perm scoreGt _)]
  have hft : optStrTruthy (some f) = true := by simpa [optStrTruthy] using hf
  simp only [formatFilterStage, hft, if_pos, List.mem_filter,
    decide_eq_true_eq, Option.getD_some]
  constructor
  · rintro ⟨hmem, htr, heq⟩
    refine ⟨hmem, ?_, heq⟩
    cases hfmt : r.format with
    | none => rw [hfmt] at htr; simp [optStrTruthy] at htr
    | some s => simp
  · rintro ⟨hmem, hne, heq⟩
    refine ⟨hmem, ?_, heq⟩
    cases hfmt : r.format with
    | none => exact absurd hfmt hne
    | some s =>
      rw [hfmt] at heq
      simp only [optStrTruthy, ne_eq, decide_eq_true_eq]
      intro hs
      rw [hs] at heq
      simp only [Option.getD_some] at heq
      have h0 : pyUpper "" = "" := rfl
      exact hf ((pyUpper_eq_empty_iff f).mp (h0 ▸ heq.symm))

/-- C4 witness: the amended statement at a concrete FLAC result and
filter `F = "flac"`. -/
theorem c4_format_filter_witness :
    formatFilterStage none [c1r1] = [c1r1] ∧
    formatFilterStage (some "") [c1r1] = [c1r1] ∧
    cliNormalizeFormat (some "*") = none ∧
    engineSearch (fun _ => "") [c1r1] (cliNormalizeFormat (some "*")) 0 =
      engineSearch (fun _ => "") [c1r1] none 0 ∧
    (c1r1 ∈ engineSearch (fun _ => "") [c1r1] (some "flac") 0 ↔
      (c1r1 ∈ seedersFilter 0 (dedupByInfohash (fun _ => "") [c1r1]) ∧
        c1r1.format ≠ none ∧ pyUpper (c1r1.format.getD "") = pyUpper "flac")) :=
  c4_format_filter (fun _ => "") [c1r1] 0 "flac" (by decide) c1r1

/-! ## Claim C5: selector fallback to first arg-max -/

/-- A present element has a first index. -/
theorem pyIndexOf_of_mem [DecidableEq α] (x : α) (l : List α) (h : x ∈ l) :
    ∃ i, pyIndexOf l x = some i := by
  induction l with
  | nil => simp at h
  | cons y ys ih =>
    by_cases hy : y = x
    · exact ⟨0, by simp [pyIndexOf, hy]⟩
    · rcases List.mem_cons.mp h with rfl | h
      · exact absurd rfl hy
      · rcases ih h with ⟨i, hi⟩
        exact ⟨i + 1, by simp [pyIndexOf, hy, hi]⟩

/-- The first max of a non-empty list is a member. -/
theorem firstMaxSplit_mem {key : α → ℚ} {l : List α} {x : α}
    (h : FirstMaxSplit key l x) : x ∈ l := by
  rcases h with ⟨l₁, l₂, rfl, _, _⟩
  exact List.mem_append.mpr (Or.inr (List.mem_cons_self _ _))

/-- The quality-score fallback decision selects the first element
attaining the maximum quality score, marks `fallback_used`, and carries
the given `album_mismatch` flag. -/
theorem createFallbackDecision_spec (t : TorrentResult) (ts : List TorrentResult)
    (reason : String) (am : Bool) :
    ∃ d, createFallbackDecision (t :: ts) reason am = some d ∧
      d.fallback_used = true ∧ d.album_mismatch = am ∧
      FirstMaxSplit torrentQualityScore (t :: ts) d.selected_torrent := by
  have hmax : pyMaxBy torrentQualityScore (t :: ts) =
      some (ts.foldl (fun best y =>
        if torrentQualityScore best < torrentQualityScore y then y else best) t) :=
    rfl
  set m := ts.foldl (fun best y =>
    if torrentQualityScore best < torrentQualityScore y then y else best) t with hm
  have hsplit : FirstMaxSplit torrentQualityScore (t :: ts) m :=
    pyMaxBy_firstMaxSplit torrentQualityScore t ts m hmax
  rcases pyIndexOf_of_mem m (t :: ts) (firstMaxSplit_mem hsplit) with ⟨i, hi⟩
  refine ⟨{ selected_torrent := m
            selected_index := (i : Int)
            reasoning := reason
            top_candidates := [(i, m, "Highest quality score")]
            rejected := []
            fallback_used := true
            album_mismatch := am }, ?_, rfl, rfl, hsplit⟩
  simp [createFallbackDecision, selectByQualityScore, hmax, hi]

/-- C5 (confirmed): for every non-empty candidate list, every advisor
failure (upstream error, no JSON, JSON decode error, missing
`selected_index`, non-integer or out-of-range index) produces a decision
with `fallback_used = true` whose selected torrent is the first element
attaining the maximum quality score; an advisor answer of
`selected_index = -1` additionally sets `album_mismatch = true`. -/
theorem c5_selector_fallback (results : List TorrentResult)
    (outcome : AdvisorOutcome) (hne : results ≠ [])
    (hfail : advisorFailed outcome results.length = true) :
    ∃ d, selectBestTorrent outcome results = some d ∧
      d.fallback_used = true ∧
      FirstMaxSplit torrentQualityScore results d.selected_torrent ∧
      (advisorSaidMinusOne outcome = true → d.album_mismatch = true) := by
  cases results with
  | nil => exact absurd rfl hne
  | cons t ts =>
    have hcons : (t :: ts : List TorrentResult) ≠ [] := by simp
    cases outcome with
    | upstreamError =>
      rcases createFallbackDecision_spec t ts
        "AI error, selected highest quality score" false with ⟨d, hd, h1, h2, h3⟩
      refine ⟨d, ?_, h1, h3, ?_⟩
      · simpa [selectBestTorrent, hcons] using hd
      · intro h
        simp [advisorSaidMinusOne] at h
    | responded content =>
      cases content with
      | noJson =>
        rcases createFallbackDecision_spec t ts
          "No valid JSON in AI response, selected highest quality score" false
          with ⟨d, hd, h1, h2, h3⟩
        refine ⟨d, ?_, h1, h3, ?_⟩
        · simpa [selectBestTorrent, hcons, parseDetailedSelection] using hd
        · intro h
          simp [advisorSaidMinusOne] at h
      | jsonBad =>
        rcases createFallbackDecision_spec t ts
          "JSON parse error, selected highest quality score" false
          with ⟨d, hd, h1, h2, h3⟩
        refine ⟨d, ?_, h1, h3, ?_⟩
        · simpa [selectBestTorrent, hcons, parseDetailedSelection] using hd
        · intro h
          simp [advisorSaidMinusOne] at h
      | jsonOk data =>
        match hidx : data.selected_index with
        | none =>
          rcases createFallbackDecision_spec t ts
            "Invalid AI response format, selected highest quality score" false
            with ⟨d, hd, h1, h2, h3⟩
          refine ⟨d, ?_, h1, h3, ?_⟩
          · simpa [selectBestTorrent, hcons, parseDetailedSelection, hidx] using hd
          · intro h
            simp [advisorSaidMinusOne, hidx] at h
        | some JsonVal.otherVal =>
          rcases createFallbackDecision_spec t ts
            "Parse error (TypeError), selected highest quality score" false
            with ⟨d, hd, h1, h2, h3⟩
          refine ⟨d, ?_, h1, h3, ?_⟩
          · simpa [selectBestTorrent, hcons, parseDetailedSelection, hidx] using hd
          · intro h
            simp [advisorSaidMinusOne, hidx] at h
        | some (JsonVal.intVal n) =>
          have hrange : ¬ (0 ≤ n ∧ n.toNat < (t :: ts).length) := by
            have h' := hfail
            simp [advisorFailed, hidx] at h'
            simp only [List.length_cons]
            omega
          rcases createFallbackDecision_spec t ts
            "AI selected invalid index, using quality score" (n = -1)
            with ⟨d, hd, h1, h2, h3⟩
          refine ⟨d, ?_, h1, h3, ?_⟩
          · simp only [selectBestTorrent, hcons, if_neg, parseDetailedSelection,
              hidx]
            rw [dif_neg hrange]
            exact hd
          · intro h
            have : n = -1 := by
              simpa [advisorSaidMinusOne, hidx] using h
            rw [h2]
            simp [this]

/-- Candidate list for the C5 witness. -/
def c5torrents : List TorrentResult :=
  [{ title := "Album A FLAC", magnet_link := "magnet:?xt=urn:btih:aa",
     size_bytes := 1000, seeders := 5, leechers := 1, uploaded_at := 0,
     indexer := "idx", format := some "FLAC" },
   { title := "Album B MP3", magnet_link := "magnet:?xt=urn:btih:bb",
     size_bytes := 1000, seeders := 5, leechers := 1, uploaded_at := 0,
     indexer := "idx", format := some "MP3" }]

/-- C5 witness: advisor answers `selected_index = -1` on a two-element
candidate list. -/
theorem c5_selector_fallback_witness :
    ∃ d, selectBestTorrent
        (AdvisorOutcome.responded (ContentOutcome.jsonOk
          { selected_index := some (JsonVal.intVal (-1)) })) c5torrents = some d ∧
      d.fallback_used = true ∧
      FirstMaxSplit torrentQualityScore c5torrents d.selected_torrent ∧
      (advisorSaidMinusOne
          (AdvisorOutcome.responded (ContentOutcome.jsonOk
            { selected_index := some (JsonVal.intVal (-1)) })) = true →
        d.album_mismatch = true) :=
  c5_selector_fallback c5torrents
    (AdvisorOutcome.responded (ContentOutcome.jsonOk
      { selected_index := some (JsonVal.intVal (-1)) }))
    (by simp [c5torrents]) (by decide)

/-! ## Claim C7: dedup by identity, first occurrence wins -/

/-- C7 (confirmed): the engine output never contains two results with the
same non-empty identity; among input duplicates of a non-empty identity
the dedup stage keeps exactly the first occurrence of the concatenated
input; and results with an empty identity all pass the dedup stage. -/
theorem c7_dedup_identity (sha1 : String → String) (l : List MusicSource)
    (ff : Option String) (ms : Int) (target : String) (htarget : target ≠ "") :
    (engineSearch sha1 l ff ms).Pairwise (fun a b =>
      musicSourceInfohash sha1 a ≠ "" → musicSourceInfohash sha1 b ≠ "" →
        musicSourceInfohash sha1 a ≠ musicSourceInfohash sha1 b) ∧
    (dedupByInfohash sha1 l).filter (idClass sha1 target) =
      (l.find? (idClass sha1 target)).toList ∧
    (dedupByInfohash sha1 l).filter (idClass sha1 "") =
      l.filter (idClass sha1 "") := by
  refine ⟨?_, dedupAux_filter_first sha1 target htarget l [] (by simp),
    dedupAux_filter_empty sha1 l []⟩
  have hd : (dedupByInfohash sha1 l).Pairwise (fun a b =>
      musicSourceInfohash sha1 a ≠ "" → musicSourceInfohash sha1 b ≠ "" →
        musicSourceInfohash sha1 a ≠ musicSourceInfohash sha1 b) :=
    dedupAux_pairwise sha1 l []
  have hs : (seedersFilter ms (dedupByInfohash sha1 l)).Pairwise _ :=
    hd.sublist (List.filter_sublist _)
  have hf : (formatFilterStage ff (seedersFilter ms (dedupByInfohash sha1 l))).Pairwise
      (fun a b =>
        musicSourceInfohash sha1 a ≠ "" → musicSourceInfohash sha1 b ≠ "" →
          musicSourceInfohash sha1 a ≠ musicSourceInfohash sha1 b) := by
    unfold formatFilterStage
    split
    · exact hs.sublist (List.filter_sublist _)
    · exact hs
  exact (List.Perm.pairwise_iff
    (R := fun a b : MusicSource =>
      musicSourceInfohash sha1 a ≠ "" → musicSourceInfohash sha1 b ≠ "" →
        musicSourceInfohash sha1 a ≠ musicSourceInfohash sha1 b)
    (fun h ha hb => (h hb ha).symm) (stableSort_perm scoreGt _)).mpr hf

/-- C7 witness: two duplicate magnet results and one empty-identity
stream result. -/
theorem c7_dedup_identity_witness :
    (engineSearch (fun _ => "") [c1r1, c1r2] none 0).Pairwise (fun a b =>
      musicSourceInfohash (fun _ => "") a ≠ "" →
      musicSourceInfohash (fun _ => "") b ≠ "" →
        musicSourceInfohash (fun _ => "") a ≠ musicSourceInfohash (fun _ => "") b) ∧
    (dedupByInfohash (fun _ => "") [c1r1, c1r2]).filter
        (idClass (fun _ => "") "aa") =
      (([c1r1, c1r2].find? (idClass (fun _ => "") "aa")).toList) ∧
    (dedupByInfohash (fun _ => "") [c1r1, c1r2]).filter (idClass (fun _ => "") "") =
      [c1r1, c1r2].filter (idClass (fun _ => "") "") :=
  c7_dedup_identity (fun _ => "") [c1r1, c1r2] none 0 "aa" (by decide)

/-! ## Claim C8: deterministic fallback query parsing -/

/-- C8, counterexample: a five-word query whose first word has at most
three characters is parsed with a two-word artist even though the second
word starts lowercase — the code's condition is
`len(words[0]) <= 3 or words[1][0].isupper()`, not the claimed
"second word uppercase" alone. -/
theorem c8_heuristic_counterexample :
    (¬ strHas "abc def ghi jkl mno" " - " ∧
     ¬ strHas "abc def ghi jkl mno" " / " ∧
     ¬ strHas "abc def ghi jkl mno" " | ") ∧
    splitWords "abc def ghi jkl mno" = ["abc", "def", "ghi", "jkl", "mno"] ∧
    charIsUpper 'd' = false ∧
    (fallbackParse "abc def ghi jkl mno").artist = some "abc def" ∧
    (fallbackParse "abc def ghi jkl mno").artist ≠ some "abc" := by
  decide

/-- C8 (amended): for separator-free queries the fallback parser yields:
`≤ 2` words → artist-only with confidence 0.5; `3-4` words → first word
artist, rest album, confidence 0.6; `≥ 5` words → the first *two* words
become the artist iff the first word has length ≤ 3 *or* the second word
starts with an uppercase letter (else the first word alone), confidence
0.6; every confidence lies in [0.5, 0.9]. -/
theorem c8_fallback_parse (q : String)
    (hsep : ¬ strHas q " - " ∧ ¬ strHas q " / " ∧ ¬ strHas q " | ") :
    ((splitWords q).length ≤ 2 → fallbackParse q =
      { artist := some (String.intercalate " " (splitWords q)), album := none,
        track := none, year := none, query_type := "artist",
        confidence := 1/2 }) ∧
    (((splitWords q).length = 3 ∨ (splitWords q).length = 4) → fallbackParse q =
      { artist := some ((splitWords q).headD ""),
        album := some (String.intercalate " " (splitWords q).tail),
        track := none, year := none, query_type := "album",
        confidence := 6/10 }) ∧
    (5 ≤ (splitWords q).length → fallbackParse q =
      (if ((splitWords q).headD "").length ≤ 3 ∨
          charIsUpper ((((splitWords q).getD 1 "").data).headD ' ') then
        { artist := some (String.intercalate " " ((splitWords q).take 2)),
          album := some (String.intercalate " " ((splitWords q).drop 2)),
          track := none, year := none, query_type := "album",
          confidence := 6/10 }
      else
        { artist := some ((splitWords q).headD ""),
          album := some (String.intercalate " " (splitWords q).tail),
          track := none, year := none, query_type := "album",
          confidence := 6/10 })) ∧
    (1/2 ≤ (fallbackParse q).confidence ∧ (fallbackParse q).confidence ≤ 9/10) := by
  have hfind : ([" - ", " / ", " | "].find? fun sep => strHas q sep) = none := by
    apply List.find?_eq_none.mpr
    intro x hx
    rcases List.mem_cons.mp hx with rfl | hx
    · simp [hsep.1]
    rcases List.mem_cons.mp hx with rfl | hx
    · simp [hsep.2.1]
    rcases List.mem_cons.mp hx with rfl | hx
    · simp [hsep.2.2]
    · simp at hx
  have hunfold : fallbackParse q =
      (if (splitWords q).length ≤ 2 then
        { artist := some (String.intercalate " " (splitWords q)), album := none,
          track := none, year := none, query_type := "artist",
          confidence := 1/2 }
      else if (splitWords q).length = 3 ∨ (splitWords q).length = 4 then
        { artist := some ((splitWords q).headD ""),
          album := some (String.intercalate " " (splitWords q).tail),
          track := none, year := none, query_type := "album",
          confidence := 6/10 }
      else if ((splitWords q).headD "").length ≤ 3 ∨
          (1 < (splitWords q).length ∧
            charIsUpper ((((splitWords q).getD 1 "").data).headD ' ')) then
        { artist := some (String.intercalate " " ((splitWords q).take 2)),
          album := some (String.intercalate " " ((splitWords q).drop 2)),
          track := none, year := none, query_type := "album",
          confidence := 6/10 }
      else
        { artist := some ((splitWords q).headD ""),
          album := some (String.intercalate " " (splitWords q).tail),
          track := none, year := none, query_type := "album",
          confidence := 6/10 } : ParsedQuery) := by
    rw [fallbackParse, hfind]
  refine ⟨?_, ?_, ?_, ?_⟩
  · intro h2
    rw [hunfold, if_pos h2]
  · intro h34
    have h2 : ¬ ((splitWords q).length ≤ 2) := by omega
    rw [hunfold, if_neg h2, if_pos h34]
  · intro h5
    have h2 : ¬ ((splitWords q).length ≤ 2) := by omega
    have h34 : ¬ ((splitWords q).length = 3 ∨ (splitWords q).length = 4) := by
      omega
    rw [hunfold, if_neg h2, if_neg h34]
    have hlen : 1 < (splitWords q).length := by omega
    by_cases hc : ((splitWords q).headD "").length ≤ 3 ∨
        charIsUpper ((((splitWords q).getD 1 "").data).headD ' ')
    · rw [if_pos hc, if_pos]
      rcases hc with hc | hc
      · exact Or.inl hc
      · exact Or.inr ⟨hlen, hc⟩
    · rw [if_neg hc, if_neg]
      intro hcon
      rcases hcon with hcon | ⟨_, hcon⟩
      · exact hc (Or.inl hcon)
      · exact hc (Or.inr hcon)
  · rw [hunfold]
    repeat' split <;> norm_num

/-- C8 witness: a five-word query with an uppercase second word. -/
theorem c8_fallback_parse_witness :
    ((splitWords "Pink Floyd The Wall Live").length ≤ 2 →
      fallbackParse "Pink Floyd The Wall Live" =
      { artist := some (String.intercalate " " (splitWords "Pink Floyd The Wall Live")),
        album := none, track := none, year := none, query_type := "artist",
        confidence := 1/2 }) ∧
    (((splitWords "Pink Floyd The Wall Live").length = 3 ∨
        (splitWords "Pink Floyd The Wall Live").length = 4) →
      fallbackParse "Pink Floyd The Wall Live" =
      { artist := some ((splitWords "Pink Floyd The Wall Live").headD ""),
        album := some (String.intercalate " "
          (splitWords "Pink Floyd The Wall Live").tail),
        track := none, year := none, query_type := "album",
        confidence := 6/10 }) ∧
    (5 ≤ (splitWords "Pink Floyd The Wall Live").length →
      fallbackParse "Pink Floyd The Wall Live" =
      (if ((splitWords "Pink Floyd The Wall Live").headD "").length ≤ 3 ∨
          charIsUpper ((((splitWords "Pink Floyd The Wall Live").getD 1 "").data).headD ' ') then
        { artist := some (String.intercalate " "
            ((splitWords "Pink Floyd The Wall Live").take 2)),
          album := some (String.intercalate " "
            ((splitWords "Pink Floyd The Wall Live").drop 2)),
          track := none, year := none, query_type := "album",
          confidence := 6/10 }
      else
        { artist := some ((splitWords "Pink Floyd The Wall Live").headD ""),
          album := some (String.intercalate " "
            (splitWords "Pink Floyd The Wall Live").tail),
          track := none, year := none, query_type := "album",
          confidence := 6/10 })) ∧
    (1/2 ≤ (fallbackParse "Pink Floyd The Wall Live").confidence ∧
      (fallbackParse "Pink Floyd The Wall Live").confidence ≤ 9/10) :=
  c8_fallback_parse "Pink Floyd The Wall Live" (by decide)

end KarmaPlayer
